import Mathlib

/-!
# WPEBackend loader (`src/loader.c`)

A shallow embedding of the backend loader: the two file-static variables
`s_impl_library` and `s_impl_loader`, the error reporting helpers, the platform
primitives `openlibrary` / `loadsymbol`, the one-time resolution
`load_impl_library` and the forwarding entry point `wpe_load_object`.

Conventions of the embedding:

* pointers and library handles are natural numbers, `0` is the null pointer;
* a C string is a Lean `String`, one character per C `char`;
* the preprocessor configuration (`WIN32`, `WPE_BACKEND`) is a `Build` value;
* everything outside the file (the environment, the dynamic linker, the backend
  code behind the loader interface, the Windows error facilities) is a `World`
  of functions;
* each call that leaves the file (getenv, library open, symbol lookup, the
  delegated `load_object`, `fwrite` to stderr, `MessageBoxA`) is appended to a
  chronological trace kept next to the two static variables;
* `abort()` is the `aborted` outcome;
* `sprintf` into a 256-byte `message` array (WIN32 branches) yields the text when
  the text and its terminator fit; otherwise the write runs past the array and
  the run ends in the `overflowed` outcome, after which nothing is said;
* `vsnprintf` into the 512-byte `msg` array of `report_error` is modelled with
  its size argument: at most 511 characters are stored, the `int` it returns is
  the length of the whole expansion, or `-1` when that length exceeds `INT_MAX`,
  and `count` is that `int` converted to `size_t`.
-/

namespace WPE

/-- Pointers and library handles; `0` is the null pointer. -/
abbrev Ptr := Nat

/-- The preprocessor configuration the file is compiled with. -/
structure Build where
  /-- Whether `WIN32` is defined. -/
  WIN32 : Bool
  /-- The expansion of `WPE_BACKEND` when it is defined. -/
  WPE_BACKEND : Option String
  deriving DecidableEq, Repr

/-- Calls that leave the file, in the order they are made. -/
inductive Event where
  /-- The call `getenv(name)`. -/
  | getenv (name : String)
  /-- The call `dlopen(name, RTLD_NOW)`, or `LoadLibraryA(name)` under WIN32. -/
  | dlopen (name : String)
  /-- The call `dlsym(library, symbol)`, or `GetProcAddress` under WIN32. -/
  | dlsym (library : Ptr) (symbol : String)
  /-- The call `s_impl_loader->load_object(object_name)`. -/
  | load_object (loader : Ptr) (object_name : String)
  /-- The call `fwrite(msg, sizeof(char), count, stderr)`: `msg` is the text held
  by the 512-byte buffer, `count` the number of bytes requested. -/
  | fwrite (msg : String) (count : Nat)
  /-- The call `MessageBoxA(NULL, msg, "Error", ...)`. -/
  | MessageBoxA (msg : String)
  deriving DecidableEq, Repr

/-- Everything the loader calls but does not define. -/
structure World where
  /-- Value of an environment variable, `none` when `getenv` returns NULL. -/
  getenv : String → Option String
  /-- Handle returned by `dlopen` / `LoadLibraryA` for a name, `0` on failure. -/
  dlopen : String → Ptr
  /-- Text returned by `dlerror()`, given the calls made so far. -/
  dlerror : List Event → String
  /-- Address returned by `dlsym` / `GetProcAddress`, `0` when absent. -/
  dlsym : Ptr → String → Ptr
  /-- Result of the `load_object` member of the interface found at an address. -/
  load_object : Ptr → String → Ptr
  /-- Code returned by `GetLastError()`, given the calls made so far. -/
  GetLastError : List Event → Nat
  /-- Text produced by `FormatMessageA` for an error code. -/
  FormatMessageA : Nat → String

/-- The file-static variables together with the trace of outside calls. -/
structure State where
  s_impl_library : Ptr
  s_impl_loader : Ptr
  trace : List Event
  deriving DecidableEq, Repr

/-- The state at process start: both statics are zero-initialised. -/
def State.init : State := { s_impl_library := 0, s_impl_loader := 0, trace := [] }

/-- Result of running a function of the file: it returns, the process aborts, or
a `sprintf` writes past the end of its `message` array. -/
inductive Outcome (α : Type) where
  | returned (value : α) (s : State)
  | aborted (s : State)
  | overflowed (s : State)
  deriving DecidableEq, Repr

/-- Sequencing: what follows a call runs only when the call returns. -/
def Outcome.bind {α β : Type} (o : Outcome α) (f : α → State → Outcome β) : Outcome β :=
  match o with
  | .returned value s => f value s
  | .aborted s => .aborted s
  | .overflowed s => .overflowed s

/-- Append one outside call to the trace. -/
def emit (e : Event) (s : State) : State := { s with trace := s.trace ++ [e] }

/-- Expansion of a printf format whose only conversions are `%s`. -/
def vformat : List Char → List String → List Char
  | [], _ => []
  | '%' :: 's' :: rest, a :: args => a.data ++ vformat rest args
  | c :: rest, args => c :: vformat rest args

/-- Size of the `message` arrays of `openlibrary` and `loadsymbol` (WIN32). -/
def MESSAGE_SIZE : Nat := 256

/-- The call `sprintf(buffer, fmt, args...)` into an array of `size` bytes: the
text left in the array, `none` when the text and its terminator do not fit. -/
def sprintf (size : Nat) (fmt : String) (args : List String) : Option String :=
  let text := vformat fmt.data args
  if text.length < size then some ⟨text⟩ else none

/-- Size of the `msg` array of `report_error`. -/
def MSG_SIZE : Nat := 512

/-- Largest value of an `int`. -/
def INT_MAX : Nat := 2147483647

/-- Largest value of a `size_t` (64 bits). -/
def SIZE_MAX : Nat := 18446744073709551615

/-- The `int` returned by `vsnprintf` for an expansion of the given length. -/
def vsnprintf_return (length : Nat) : Int :=
  if length ≤ INT_MAX then (length : Int) else -1

/-- Conversion of an `int` to `size_t`. -/
def size_t_of_int (r : Int) : Nat := (r % ((SIZE_MAX : Int) + 1)).toNat

/-- The function `report_error(fmt, ...)`. -/
def report_error (B : Build) (fmt : String) (args : List String) (s : State) : State :=
  let formatted := vformat fmt.data args
  -- size_t count = vsnprintf(msg, sizeof(msg), fmt, valist): at most
  -- sizeof(msg) - 1 characters are stored
  let msg : String := ⟨formatted.take (MSG_SIZE - 1)⟩
  let count := size_t_of_int (vsnprintf_return formatted.length)
  let s1 := emit (.fwrite msg count) s
  if B.WIN32 then emit (.MessageBoxA msg) s1 else s1

/-- The function `report_last_error(message)` (WIN32 only). -/
def report_last_error (B : Build) (W : World) (message : String) (s : State) : State :=
  let errorMessageID := W.GetLastError s.trace
  if errorMessageID ≠ 0 then
    let messageBuffer := W.FormatMessageA errorMessageID
    report_error B "wpe: %s: %s\n" [message, messageBuffer] s
  else s

/-- The function `openlibrary(library_name, context)`. -/
def openlibrary (B : Build) (W : World) (library_name context : String) (s : State) :
    Outcome Ptr :=
  let handle := W.dlopen library_name
  let s1 := emit (.dlopen library_name) s
  if B.WIN32 then
    if handle = 0 then
      match sprintf MESSAGE_SIZE "Failed to load library %s (%s)" [library_name, context] with
      | some message => .returned handle (report_last_error B W message s1)
      | none => .overflowed s1
    else .returned handle s1
  else
    if handle = 0 then
      .returned handle
        (report_error B "wpe: could not load %s: %s\n" [context, W.dlerror s1.trace] s1)
    else .returned handle s1

/-- The function `loadsymbol(library, symbol)`. -/
def loadsymbol (B : Build) (W : World) (library : Ptr) (symbol : String) (s : State) :
    Outcome Ptr :=
  let ret := W.dlsym library symbol
  let s1 := emit (.dlsym library symbol) s
  if B.WIN32 then
    if ret = 0 then
      match sprintf MESSAGE_SIZE "Failed to load symbol %s" [symbol] with
      | some message => .returned ret (report_last_error B W message s1)
      | none => .overflowed s1
    else .returned ret s1
  else .returned ret s1

/-- The `library_name` constant of `load_impl_library`. -/
def library_name (B : Build) : String :=
  if B.WIN32 then "WPEBackend-default.dll" else "libWPEBackend-default.so"

/-- The open performed by `load_impl_library`, before the handle is stored. -/
def open_impl_library (B : Build) (W : World) (s : State) : Outcome Ptr :=
  match B.WPE_BACKEND with
  | some backend => openlibrary B W backend "compile-time defined WPE_BACKEND" s
  | none =>
    let env_library_name := W.getenv "WPE_BACKEND_LIBRARY"
    let s0 := emit (.getenv "WPE_BACKEND_LIBRARY") s
    match env_library_name with
    | some name => openlibrary B W name "WPE_BACKEND_LIBRARY environment variable" s0
    | none => openlibrary B W (library_name B) "Default backend library" s0

/-- The function `load_impl_library()`. -/
def load_impl_library (B : Build) (W : World) (s : State) : Outcome Unit :=
  (open_impl_library B W s).bind fun handle s0 =>
    let s1 : State := { s0 with s_impl_library := handle }
    if s1.s_impl_library = 0 then .aborted s1
    else
      (loadsymbol B W s1.s_impl_library "_wpe_loader_interface" s1).bind fun loader s2 =>
        .returned () { s2 with s_impl_loader := loader }

/-- The part of `wpe_load_object` that follows the initialisation check. -/
def forward_object (B : Build) (W : World) (object_name : String) (s : State) :
    Outcome Ptr :=
  if s.s_impl_loader ≠ 0 then
    .returned (W.load_object s.s_impl_loader object_name)
      (emit (.load_object s.s_impl_loader object_name) s)
  else
    (loadsymbol B W s.s_impl_library object_name s).bind fun object s1 =>
      if object = 0 then
        .returned object
          (report_error B "wpe_load_object: failed to load object with name '%s'\n"
            [object_name] s1)
      else .returned object s1

/-- The function `wpe_load_object(object_name)`. -/
def wpe_load_object (B : Build) (W : World) (object_name : String) (s : State) :
    Outcome Ptr :=
  if s.s_impl_library = 0 then
    (load_impl_library B W s).bind fun _ s1 => forward_object B W object_name s1
  else forward_object B W object_name s

/-- The state an outcome ends in. -/
def Outcome.state {α : Type} : Outcome α → State
  | .returned _ s => s
  | .aborted s => s
  | .overflowed s => s

/-- Sequential calls of `wpe_load_object`, one per name, stopping at the first
call that does not return; the values returned are collected in call order. -/
def calls (B : Build) (W : World) : List String → State → Outcome (List Ptr)
  | [], s => .returned [] s
  | object_name :: rest, s =>
    (wpe_load_object B W object_name s).bind fun value s1 =>
      (calls B W rest s1).bind fun values s2 => .returned (value :: values) s2

/-- The functions of the file that change the static variables. -/
inductive Step where
  | wpe_load_object (object_name : String)
  | load_impl_library
  deriving DecidableEq, Repr

/-- One step that returns; `none` when it does not return. -/
def step (B : Build) (W : World) (st : Step) (s : State) : Option State :=
  match st with
  | .wpe_load_object object_name =>
    match wpe_load_object B W object_name s with
    | .returned _ s1 => some s1
    | _ => none
  | .load_impl_library =>
    match load_impl_library B W s with
    | .returned _ s1 => some s1
    | _ => none

/-- A sequence of returning steps; `none` as soon as one does not return. -/
def steps (B : Build) (W : World) : List Step → State → Option State
  | [], s => some s
  | st :: rest, s =>
    match step B W st s with
    | some s1 => steps B W rest s1
    | none => none

/-! ## Observations on traces -/

/-- Names passed to the library open primitive, in order. -/
def opened (t : List Event) : List String :=
  t.filterMap fun e => match e with
    | .dlopen name => some name
    | _ => none

/-- Environment variables read, in order. -/
def env_reads (t : List Event) : List String :=
  t.filterMap fun e => match e with
    | .getenv name => some name
    | _ => none

/-- Symbol lookups made, in order. -/
def lookups (t : List Event) : List (Ptr × String) :=
  t.filterMap fun e => match e with
    | .dlsym library symbol => some (library, symbol)
    | _ => none

/-- Calls of the loader interface's `load_object`, in order. -/
def delegations (t : List Event) : List (Ptr × String) :=
  t.filterMap fun e => match e with
    | .load_object loader object_name => some (loader, object_name)
    | _ => none

/-- Diagnostics written to stderr, in order: buffer text and byte count. -/
def diagnostics (t : List Event) : List (String × Nat) :=
  t.filterMap fun e => match e with
    | .fwrite msg count => some (msg, count)
    | _ => none

/-! ## Worlds and builds used in the concrete scenarios -/

/-- A POSIX build without a compile-time backend. -/
def posixBuild : Build := { WIN32 := false, WPE_BACKEND := none }

/-- A WIN32 build without a compile-time backend. -/
def win32Build : Build := { WIN32 := true, WPE_BACKEND := none }

/-- A POSIX build with a compile-time backend name. -/
def pinnedBuild : Build := { WIN32 := false, WPE_BACKEND := some "libWPEBackend-fdo.so" }

/-- A world where only the default libraries exist (handle 7), the variable
`WPE_BACKEND_LIBRARY` is unset, and the library exports no symbol at all. -/
def legacyWorld : World where
  getenv := fun _ => none
  dlopen := fun name =>
    if name = "libWPEBackend-default.so" ∨ name = "WPEBackend-default.dll" then 7 else 0
  dlerror := fun _ => "cannot open shared object file: No such file or directory"
  dlsym := fun _ _ => 0
  load_object := fun _ _ => 0
  GetLastError := fun _ => 127
  FormatMessageA := fun _ => "The specified procedure could not be found."

/-- The world `legacyWorld` whose library exports the loader interface at address
100; its `load_object` knows the object "bar" (address 4242) and nothing else. -/
def interfaceWorld : World :=
  { legacyWorld with
    dlsym := fun library symbol =>
      if library = 7 ∧ symbol = "_wpe_loader_interface" then 100 else 0
    load_object := fun loader object_name =>
      if loader = 100 ∧ object_name = "bar" then 4242 else 0 }

/-- The world `legacyWorld` with `WPE_BACKEND_LIBRARY` set to a given value. -/
def envWorld (value : String) : World :=
  { legacyWorld with
    getenv := fun name => if name = "WPE_BACKEND_LIBRARY" then some value else none }

/-! ## Shared facts about the primitives -/

/-- Whether the message `loadsymbol` formats for a failed lookup fits its array;
true of every lookup outside the WIN32 failure branch. -/
def symbol_fits (B : Build) (W : World) (library : Ptr) (symbol : String) : Prop :=
  B.WIN32 = true → W.dlsym library symbol = 0 → symbol.length + 22 < MESSAGE_SIZE

/-- Whether the message `openlibrary` formats for a failed open fits its array;
true of every open outside the WIN32 failure branch. -/
def library_fits (B : Build) (W : World) (name context : String) : Prop :=
  B.WIN32 = true → W.dlopen name = 0 → name.length + context.length + 26 < MESSAGE_SIZE

/-- A count within the range of `int` survives the conversion to `size_t`. -/
theorem size_t_of_vsnprintf_return (length : Nat) (h : length ≤ INT_MAX) :
    size_t_of_int (vsnprintf_return length) = length := by
  unfold size_t_of_int vsnprintf_return
  rw [if_pos h]
  have hlt : (length : Int) < (SIZE_MAX : Int) + 1 := by
    unfold INT_MAX at h
    unfold SIZE_MAX
    omega
  rw [Int.emod_eq_of_lt (Int.ofNat_nonneg _) hlt]
  rfl

/-- The text `loadsymbol` formats, when it fits. -/
theorem sprintf_symbol (symbol : String) :
    sprintf MESSAGE_SIZE "Failed to load symbol %s" [symbol] =
      if symbol.length + 22 < MESSAGE_SIZE then
        some ⟨"Failed to load symbol ".data ++ (symbol.data ++ [])⟩
      else none := by
  have hv : vformat "Failed to load symbol %s".data [symbol] =
      "Failed to load symbol ".data ++ (symbol.data ++ []) := rfl
  have hlen : ("Failed to load symbol ".data ++ (symbol.data ++ [])).length =
      symbol.length + 22 := by
    rw [List.length_append, List.length_append]
    show 22 + (symbol.data.length + 0) = symbol.data.length + 22
    omega
  unfold sprintf
  rw [hv]
  dsimp only
  rw [hlen]

/-- The text `openlibrary` formats, when it fits. -/
theorem sprintf_library (name context : String) :
    sprintf MESSAGE_SIZE "Failed to load library %s (%s)" [name, context] =
      if name.length + context.length + 26 < MESSAGE_SIZE then
        some ⟨"Failed to load library ".data ++
          (name.data ++ (" (".data ++ (context.data ++ ")".data)))⟩
      else none := by
  have hv : vformat "Failed to load library %s (%s)".data [name, context] =
      "Failed to load library ".data ++
        (name.data ++ (" (".data ++ (context.data ++ ")".data))) := rfl
  have hlen : ("Failed to load library ".data ++
      (name.data ++ (" (".data ++ (context.data ++ ")".data)))).length =
      name.length + context.length + 26 := by
    simp only [List.length_append]
    show 23 + (name.data.length + (2 + (context.data.length + 1))) =
      name.data.length + context.data.length + 26
    omega
  unfold sprintf
  rw [hv]
  dsimp only
  rw [hlen]

/-- Reporting an error leaves the statics alone and adds only diagnostics. -/
theorem report_error_spec (B : Build) (fmt : String) (args : List String) (s : State) :
    (report_error B fmt args s).s_impl_library = s.s_impl_library ∧
    (report_error B fmt args s).s_impl_loader = s.s_impl_loader ∧
    opened (report_error B fmt args s).trace = opened s.trace ∧
    env_reads (report_error B fmt args s).trace = env_reads s.trace ∧
    lookups (report_error B fmt args s).trace = lookups s.trace ∧
    delegations (report_error B fmt args s).trace = delegations s.trace ∧
    diagnostics (report_error B fmt args s).trace = diagnostics s.trace ++
      [(⟨(vformat fmt.data args).take (MSG_SIZE - 1)⟩,
        size_t_of_int (vsnprintf_return (vformat fmt.data args).length))] := by
  simp only [report_error, emit]
  split_ifs <;> simp [opened, env_reads, lookups, delegations, diagnostics]

/-- Reporting the last error leaves the statics alone and adds only diagnostics,
none when `GetLastError()` is zero. -/
theorem report_last_error_spec (B : Build) (W : World) (message : String) (s : State) :
    (report_last_error B W message s).s_impl_library = s.s_impl_library ∧
    (report_last_error B W message s).s_impl_loader = s.s_impl_loader ∧
    opened (report_last_error B W message s).trace = opened s.trace ∧
    env_reads (report_last_error B W message s).trace = env_reads s.trace ∧
    lookups (report_last_error B W message s).trace = lookups s.trace ∧
    delegations (report_last_error B W message s).trace = delegations s.trace := by
  unfold report_last_error
  dsimp only
  split_ifs
  · have h := report_error_spec B "wpe: %s: %s\n"
      [message, W.FormatMessageA (W.GetLastError s.trace)] s
    exact ⟨h.1, h.2.1, h.2.2.1, h.2.2.2.1, h.2.2.2.2.1, h.2.2.2.2.2.1⟩
  · exact ⟨rfl, rfl, rfl, rfl, rfl, rfl⟩

/-- What `loadsymbol` does: one lookup; it returns the address the linker gives
unless its message does not fit, in which case it overflows; no open, no
delegation, the statics untouched; silent when found or on POSIX. -/
theorem loadsymbol_cases (B : Build) (W : World) (library : Ptr) (symbol : String)
    (s : State) :
    ∃ s1,
      ((symbol_fits B W library symbol ∧
          loadsymbol B W library symbol s = .returned (W.dlsym library symbol) s1) ∨
        (¬ symbol_fits B W library symbol ∧
          loadsymbol B W library symbol s = .overflowed s1)) ∧
      s1.s_impl_library = s.s_impl_library ∧
      s1.s_impl_loader = s.s_impl_loader ∧
      opened s1.trace = opened s.trace ∧
      env_reads s1.trace = env_reads s.trace ∧
      lookups s1.trace = lookups s.trace ++ [(library, symbol)] ∧
      delegations s1.trace = delegations s.trace ∧
      (B.WIN32 = false ∨ W.dlsym library symbol ≠ 0 → s1 = emit (.dlsym library symbol) s) := by
  have hemit : (emit (.dlsym library symbol) s).s_impl_library = s.s_impl_library ∧
      (emit (.dlsym library symbol) s).s_impl_loader = s.s_impl_loader ∧
      opened (emit (.dlsym library symbol) s).trace = opened s.trace ∧
      env_reads (emit (.dlsym library symbol) s).trace = env_reads s.trace ∧
      lookups (emit (.dlsym library symbol) s).trace = lookups s.trace ++ [(library, symbol)] ∧
      delegations (emit (.dlsym library symbol) s).trace = delegations s.trace := by
    simp [emit, opened, env_reads, lookups, delegations]
  obtain ⟨e1, e2, e3, e4, e5, e6⟩ := hemit
  unfold loadsymbol
  dsimp only
  by_cases hw : B.WIN32 = true
  · by_cases h0 : W.dlsym library symbol = 0
    · rw [if_pos hw, if_pos h0, sprintf_symbol]
      by_cases hfit : symbol.length + 22 < MESSAGE_SIZE
      · rw [if_pos hfit]
        have hr := report_last_error_spec B W
          ⟨"Failed to load symbol ".data ++ (symbol.data ++ [])⟩
          (emit (.dlsym library symbol) s)
        refine ⟨_, Or.inl ⟨fun _ _ => hfit, by rw [h0]⟩, by rw [hr.1, e1], by rw [hr.2.1, e2],
          by rw [hr.2.2.1, e3], by rw [hr.2.2.2.1, e4], by rw [hr.2.2.2.2.1, e5],
          by rw [hr.2.2.2.2.2, e6], ?_⟩
        rintro (hp | hne)
        · rw [hw] at hp; cases hp
        · exact absurd h0 hne
      · rw [if_neg hfit]
        refine ⟨_, Or.inr ⟨fun hf => hfit (hf hw h0), rfl⟩, e1, e2, e3, e4, e5, e6, fun _ => rfl⟩
    · rw [if_pos hw, if_neg h0]
      exact ⟨_, Or.inl ⟨fun _ h => absurd h h0, rfl⟩, e1, e2, e3, e4, e5, e6, fun _ => rfl⟩
  · rw [if_neg hw]
    exact ⟨_, Or.inl ⟨fun h => absurd h hw, rfl⟩, e1, e2, e3, e4, e5, e6, fun _ => rfl⟩

/-- What `openlibrary` does: one open; it returns the handle the linker gives
unless its message does not fit, in which case it overflows; no lookup, no
delegation, no variable read, the statics untouched; silent when the open
succeeds. -/
theorem openlibrary_cases (B : Build) (W : World) (name context : String) (s : State) :
    ∃ s1,
      ((library_fits B W name context ∧
          openlibrary B W name context s = .returned (W.dlopen name) s1) ∨
        (¬ library_fits B W name context ∧
          openlibrary B W name context s = .overflowed s1)) ∧
      s1.s_impl_library = s.s_impl_library ∧
      s1.s_impl_loader = s.s_impl_loader ∧
      opened s1.trace = opened s.trace ++ [name] ∧
      env_reads s1.trace = env_reads s.trace ∧
      lookups s1.trace = lookups s.trace ∧
      delegations s1.trace = delegations s.trace ∧
      (W.dlopen name ≠ 0 → s1 = emit (.dlopen name) s) := by
  have hemit : (emit (.dlopen name) s).s_impl_library = s.s_impl_library ∧
      (emit (.dlopen name) s).s_impl_loader = s.s_impl_loader ∧
      opened (emit (.dlopen name) s).trace = opened s.trace ++ [name] ∧
      env_reads (emit (.dlopen name) s).trace = env_reads s.trace ∧
      lookups (emit (.dlopen name) s).trace = lookups s.trace ∧
      delegations (emit (.dlopen name) s).trace = delegations s.trace := by
    simp [emit, opened, env_reads, lookups, delegations]
  obtain ⟨e1, e2, e3, e4, e5, e6⟩ := hemit
  unfold openlibrary
  dsimp only
  by_cases h0 : W.dlopen name = 0
  · by_cases hw : B.WIN32 = true
    · rw [if_pos hw, if_pos h0, sprintf_library]
      by_cases hfit : name.length + context.length + 26 < MESSAGE_SIZE
      · rw [if_pos hfit]
        have hr := report_last_error_spec B W
          ⟨"Failed to load library ".data ++
            (name.data ++ (" (".data ++ (context.data ++ ")".data)))⟩
          (emit (.dlopen name) s)
        exact ⟨_, Or.inl ⟨fun _ _ => hfit, by rw [h0]⟩, by rw [hr.1, e1], by rw [hr.2.1, e2],
          by rw [hr.2.2.1, e3], by rw [hr.2.2.2.1, e4], by rw [hr.2.2.2.2.1, e5],
          by rw [hr.2.2.2.2.2, e6], fun hne => absurd h0 hne⟩
      · rw [if_neg hfit]
        exact ⟨_, Or.inr ⟨fun hf => hfit (hf hw h0), rfl⟩, e1, e2, e3, e4, e5, e6,
          fun _ => rfl⟩
    · rw [if_neg hw, if_pos h0]
      have hr := report_error_spec B "wpe: could not load %s: %s\n"
        [context, W.dlerror (emit (.dlopen name) s).trace] (emit (.dlopen name) s)
      exact ⟨_, Or.inl ⟨fun h => absurd h hw, by rw [h0]⟩, by rw [hr.1, e1], by rw [hr.2.1, e2],
        by rw [hr.2.2.1, e3], by rw [hr.2.2.2.1, e4], by rw [hr.2.2.2.2.1, e5],
        by rw [hr.2.2.2.2.2.1, e6], fun hne => absurd h0 hne⟩
  · have hret : openlibrary B W name context s =
        .returned (W.dlopen name) (emit (.dlopen name) s) := by
      unfold openlibrary
      dsimp only
      split_ifs <;> rfl
    unfold openlibrary at hret
    dsimp only at hret
    rw [hret]
    exact ⟨_, Or.inl ⟨fun _ h => absurd h h0, rfl⟩, e1, e2, e3, e4, e5, e6, fun _ => rfl⟩

/-- What `open_impl_library` does: one open, of a name whose handle it returns
unless `openlibrary` overflows; no symbol lookup, no delegation, the statics
untouched, no diagnostic when the open succeeds. -/
theorem open_impl_library_cases (B : Build) (W : World) (s : State) :
    ∃ name context s1,
      ((library_fits B W name context ∧
          open_impl_library B W s = .returned (W.dlopen name) s1) ∨
        (¬ library_fits B W name context ∧ open_impl_library B W s = .overflowed s1)) ∧
      s1.s_impl_library = s.s_impl_library ∧
      s1.s_impl_loader = s.s_impl_loader ∧
      opened s1.trace = opened s.trace ++ [name] ∧
      lookups s1.trace = lookups s.trace ∧
      delegations s1.trace = delegations s.trace ∧
      (W.dlopen name ≠ 0 → diagnostics s1.trace = diagnostics s.trace) := by
  have hget : ∀ (name context : String),
      ∃ s1,
        ((library_fits B W name context ∧
            openlibrary B W name context (emit (.getenv "WPE_BACKEND_LIBRARY") s) =
              .returned (W.dlopen name) s1) ∨
          (¬ library_fits B W name context ∧
            openlibrary B W name context (emit (.getenv "WPE_BACKEND_LIBRARY") s) =
              .overflowed s1)) ∧
        s1.s_impl_library = s.s_impl_library ∧
        s1.s_impl_loader = s.s_impl_loader ∧
        opened s1.trace = opened s.trace ++ [name] ∧
        lookups s1.trace = lookups s.trace ∧
        delegations s1.trace = delegations s.trace ∧
        (W.dlopen name ≠ 0 → diagnostics s1.trace = diagnostics s.trace) := by
    intro name context
    obtain ⟨s1, hc, h1, h2, h3, -, h5, h6, h7⟩ :=
      openlibrary_cases B W name context (emit (.getenv "WPE_BACKEND_LIBRARY") s)
    refine ⟨s1, hc, h1, h2, ?_, ?_, ?_, ?_⟩
    · rw [h3]; simp [emit, opened]
    · rw [h5]; simp [emit, lookups]
    · rw [h6]; simp [emit, delegations]
    · intro hne
      rw [h7 hne]
      simp [emit, diagnostics]
  unfold open_impl_library
  split
  · rename_i backend _
    obtain ⟨s1, hc, h1, h2, h3, -, h5, h6, h7⟩ :=
      openlibrary_cases B W backend "compile-time defined WPE_BACKEND" s
    refine ⟨backend, _, s1, hc, h1, h2, h3, h5, h6, ?_⟩
    intro hne
    rw [h7 hne]
    simp [emit, diagnostics]
  · dsimp only
    split
    · rename_i name _
      obtain ⟨s1, h⟩ := hget name "WPE_BACKEND_LIBRARY environment variable"
      exact ⟨name, _, s1, h⟩
    · obtain ⟨s1, h⟩ := hget (library_name B) "Default backend library"
      exact ⟨library_name B, _, s1, h⟩

/-- A failed open that returns makes `load_impl_library` abort right after the
null handle is stored. -/
theorem load_impl_library_of_open_failed (B : Build) (W : World) (s s0 : State)
    (h : open_impl_library B W s = .returned 0 s0) :
    load_impl_library B W s = .aborted { s0 with s_impl_library := 0 } := by
  simp [load_impl_library, h, Outcome.bind]

/-- An open that overflows ends `load_impl_library` there. -/
theorem load_impl_library_of_open_overflowed (B : Build) (W : World) (s s0 : State)
    (h : open_impl_library B W s = .overflowed s0) :
    load_impl_library B W s = .overflowed s0 := by
  simp [load_impl_library, h, Outcome.bind]

/-- The lookup of the interface symbol never overflows: its message is short. -/
theorem symbol_fits_interface (B : Build) (W : World) (library : Ptr) :
    symbol_fits B W library "_wpe_loader_interface" := by
  intro _ _
  decide

/-- A successful open makes `load_impl_library` store the handle, look the
interface up and return. -/
theorem load_impl_library_of_open_ok (B : Build) (W : World) (s s0 : State) (handle : Ptr)
    (h : open_impl_library B W s = .returned handle s0) (hne : handle ≠ 0) :
    ∃ s1, load_impl_library B W s = .returned () s1 ∧
      s1.s_impl_library = handle ∧
      s1.s_impl_loader = W.dlsym handle "_wpe_loader_interface" ∧
      opened s1.trace = opened s0.trace ∧
      env_reads s1.trace = env_reads s0.trace ∧
      lookups s1.trace = lookups s0.trace ++ [(handle, "_wpe_loader_interface")] ∧
      delegations s1.trace = delegations s0.trace ∧
      (B.WIN32 = false ∨ W.dlsym handle "_wpe_loader_interface" ≠ 0 →
        diagnostics s1.trace = diagnostics s0.trace) := by
  obtain ⟨s2, hc, h1, h2, h3, h4, h5, h6, h7⟩ :=
    loadsymbol_cases B W handle "_wpe_loader_interface" { s0 with s_impl_library := handle }
  rcases hc with ⟨-, hret⟩ | ⟨hnot, -⟩
  · refine ⟨{ s2 with s_impl_loader := W.dlsym handle "_wpe_loader_interface" }, ?_, h1, rfl,
      h3, h4, h5, h6, ?_⟩
    · simp [load_impl_library, h, Outcome.bind, hne, hret]
    · intro hq
      show diagnostics s2.trace = _
      rw [h7 hq]
      simp [emit, diagnostics]
  · exact absurd (symbol_fits_interface B W handle) hnot

/-- What a returning `load_impl_library` leaves behind: a non-null handle, the
result of the interface lookup in that library, one open, one lookup, no
delegation, and no diagnostic on POSIX or when the interface was found. -/
theorem load_impl_library_returned_spec (B : Build) (W : World) (s s1 : State)
    (hload : load_impl_library B W s = .returned () s1) :
    s1.s_impl_library ≠ 0 ∧
    s1.s_impl_loader = W.dlsym s1.s_impl_library "_wpe_loader_interface" ∧
    (∃ name, opened s1.trace = opened s.trace ++ [name] ∧
      s1.s_impl_library = W.dlopen name) ∧
    lookups s1.trace = lookups s.trace ++ [(s1.s_impl_library, "_wpe_loader_interface")] ∧
    delegations s1.trace = delegations s.trace ∧
    (B.WIN32 = false ∨ s1.s_impl_loader ≠ 0 → diagnostics s1.trace = diagnostics s.trace) ∧
    (∃ s0, open_impl_library B W s = .returned s1.s_impl_library s0) := by
  obtain ⟨name, context, s0, hc, -, -, hop, hlk, hdl, hdg⟩ := open_impl_library_cases B W s
  rcases hc with ⟨-, hret⟩ | ⟨-, hov⟩
  · by_cases h0 : W.dlopen name = 0
    · rw [h0] at hret
      rw [load_impl_library_of_open_failed B W s s0 hret] at hload
      cases hload
    · obtain ⟨s2, hl, g1, g2, g3, -, g5, g6, g7⟩ :=
        load_impl_library_of_open_ok B W s s0 (W.dlopen name) hret h0
      rw [hl] at hload
      injection hload with _ hs
      subst hs
      refine ⟨by rw [g1]; exact h0, by rw [g2, g1], ⟨name, by rw [g3, hop], g1⟩,
        by rw [g5, hlk, g1], by rw [g6, hdl], ?_, ⟨s0, by rw [g1]; exact hret⟩⟩
      intro hq
      rw [g2] at hq
      rw [g7 hq, hdg h0]
  · rw [load_impl_library_of_open_overflowed B W s s0 hov] at hload
    cases hload

/-- The delegated branch of `forward_object`. -/
theorem forward_object_delegated (B : Build) (W : World) (object_name : String)
    (s : State) (h : s.s_impl_loader ≠ 0) :
    forward_object B W object_name s =
      .returned (W.load_object s.s_impl_loader object_name)
        (emit (.load_object s.s_impl_loader object_name) s) := by
  simp [forward_object, h]

/-- The direct-lookup branch of `forward_object`, once `loadsymbol` has returned. -/
theorem forward_object_legacy (B : Build) (W : World) (object_name : String)
    (s sl : State) (value : Ptr) (h : s.s_impl_loader = 0)
    (hl : loadsymbol B W s.s_impl_library object_name s = .returned value sl) :
    forward_object B W object_name s =
      .returned value
        (if value = 0 then
          report_error B "wpe_load_object: failed to load object with name '%s'\n"
            [object_name] sl
        else sl) := by
  simp only [forward_object, h, hl, Outcome.bind]
  split_ifs <;> simp_all

/-- A request past the initialisation check: it returns, unless the interface is
absent and `loadsymbol` overflows; it leaves the statics alone, opens nothing and
reads no variable; it adds one delegation when the interface is present and one
direct lookup otherwise. -/
theorem forward_object_cases (B : Build) (W : World) (object_name : String) (s : State) :
    ∃ s1,
      (((s.s_impl_loader ≠ 0 ∨ symbol_fits B W s.s_impl_library object_name) ∧
          forward_object B W object_name s =
            .returned (if s.s_impl_loader ≠ 0 then W.load_object s.s_impl_loader object_name
              else W.dlsym s.s_impl_library object_name) s1) ∨
        (¬ (s.s_impl_loader ≠ 0 ∨ symbol_fits B W s.s_impl_library object_name) ∧
          forward_object B W object_name s = .overflowed s1)) ∧
      s1.s_impl_library = s.s_impl_library ∧
      s1.s_impl_loader = s.s_impl_loader ∧
      opened s1.trace = opened s.trace ∧
      env_reads s1.trace = env_reads s.trace ∧
      lookups s1.trace = lookups s.trace ++
        (if s.s_impl_loader ≠ 0 then [] else [(s.s_impl_library, object_name)]) ∧
      delegations s1.trace = delegations s.trace ++
        (if s.s_impl_loader ≠ 0 then [(s.s_impl_loader, object_name)] else []) ∧
      (s.s_impl_loader ≠ 0 → diagnostics s1.trace = diagnostics s.trace) := by
  by_cases h : s.s_impl_loader = 0
  · obtain ⟨sl, hc, h1, h2, h3, h4, h5, h6, -⟩ :=
      loadsymbol_cases B W s.s_impl_library object_name s
    simp only [h, ne_eq, not_true_eq_false, if_false, false_or, List.append_nil]
    rcases hc with ⟨hfit, hret⟩ | ⟨hnot, hov⟩
    · rw [forward_object_legacy B W object_name s sl _ h hret]
      refine ⟨_, Or.inl ⟨hfit, rfl⟩, ?_⟩
      split_ifs with h0
      · have hr := report_error_spec B
          "wpe_load_object: failed to load object with name '%s'\n" [object_name] sl
        exact ⟨by rw [hr.1, h1], by rw [hr.2.1, h2, h], by rw [hr.2.2.1, h3],
          by rw [hr.2.2.2.1, h4], by rw [hr.2.2.2.2.1, h5], by rw [hr.2.2.2.2.2.1, h6],
          fun hf => hf.elim⟩
      · exact ⟨h1, by rw [h2, h], h3, h4, h5, h6, fun hf => hf.elim⟩
    · refine ⟨sl, Or.inr ⟨hnot, ?_⟩, h1, by rw [h2, h], h3, h4, h5, h6,
        fun hf => hf.elim⟩
      simp [forward_object, h, hov, Outcome.bind]
  · rw [forward_object_delegated B W object_name s h]
    simp only [h, ne_eq, not_false_eq_true, if_true, true_or, true_and, not_true_eq_false,
      false_and, or_false]
    exact ⟨_, rfl, by simp [emit, opened, env_reads, lookups, delegations, diagnostics]⟩

/-- With a library already stored, `wpe_load_object` skips the resolution. -/
theorem wpe_load_object_ready (B : Build) (W : World) (object_name : String)
    (s : State) (h : s.s_impl_library ≠ 0) :
    wpe_load_object B W object_name s = forward_object B W object_name s := by
  simp [wpe_load_object, h]

/-- With no library stored, `wpe_load_object` is the resolution followed by the
request. -/
theorem wpe_load_object_first (B : Build) (W : World) (object_name : String)
    (s s1 : State) (h : s.s_impl_library = 0)
    (hload : load_impl_library B W s = .returned () s1) :
    wpe_load_object B W object_name s = forward_object B W object_name s1 := by
  simp [wpe_load_object, h, hload, Outcome.bind]

/-- What a returning request past the initialisation check has done. -/
theorem forward_object_returned_spec (B : Build) (W : World) (object_name : String)
    (s s1 : State) (value : Ptr)
    (h : forward_object B W object_name s = .returned value s1) :
    (s.s_impl_loader ≠ 0 ∨ symbol_fits B W s.s_impl_library object_name) ∧
    value = (if s.s_impl_loader ≠ 0 then W.load_object s.s_impl_loader object_name
      else W.dlsym s.s_impl_library object_name) ∧
    s1.s_impl_library = s.s_impl_library ∧
    s1.s_impl_loader = s.s_impl_loader ∧
    opened s1.trace = opened s.trace ∧
    env_reads s1.trace = env_reads s.trace ∧
    lookups s1.trace = lookups s.trace ++
      (if s.s_impl_loader ≠ 0 then [] else [(s.s_impl_library, object_name)]) ∧
    delegations s1.trace = delegations s.trace ++
      (if s.s_impl_loader ≠ 0 then [(s.s_impl_loader, object_name)] else []) ∧
    (s.s_impl_loader ≠ 0 → diagnostics s1.trace = diagnostics s.trace) := by
  obtain ⟨s2, hc, hrest⟩ := forward_object_cases B W object_name s
  rcases hc with ⟨hfit, hret⟩ | ⟨-, hov⟩
  · rw [hret] at h
    injection h with hv hs
    subst hs
    exact ⟨hfit, hv.symm, hrest⟩
  · rw [hov] at h
    cases h

/-- A returning `wpe_load_object` either found a library stored and served the
request, or ran a returning resolution first. -/
theorem wpe_load_object_returned_cases (B : Build) (W : World) (object_name : String)
    (s s1 : State) (value : Ptr)
    (h : wpe_load_object B W object_name s = .returned value s1) :
    (s.s_impl_library ≠ 0 ∧ forward_object B W object_name s = .returned value s1) ∨
    (s.s_impl_library = 0 ∧ ∃ s0, load_impl_library B W s = .returned () s0 ∧
      forward_object B W object_name s0 = .returned value s1) := by
  by_cases hs : s.s_impl_library = 0
  · right
    refine ⟨hs, ?_⟩
    simp only [wpe_load_object, hs, if_true] at h
    cases hl : load_impl_library B W s with
    | returned u s0 =>
      rw [hl] at h
      exact ⟨s0, rfl, h⟩
    | aborted s0 =>
      rw [hl] at h
      cases h
    | overflowed s0 =>
      rw [hl] at h
      cases h
  · left
    rw [wpe_load_object_ready B W object_name s hs] at h
    exact ⟨hs, h⟩

/-- Any sequence of requests made with a library already stored returns, provided
no direct lookup overflows; the statics, the opens and the variable reads stay as
they were, every request adds one delegation (interface present) or one direct
lookup (interface absent). -/
theorem calls_ready (B : Build) (W : World) (names : List String) (s : State)
    (h : s.s_impl_library ≠ 0)
    (hfit : ∀ n ∈ names, s.s_impl_loader ≠ 0 ∨ symbol_fits B W s.s_impl_library n) :
    ∃ s1, calls B W names s =
        .returned (names.map fun n => if s.s_impl_loader ≠ 0 then
          W.load_object s.s_impl_loader n else W.dlsym s.s_impl_library n) s1 ∧
      s1.s_impl_library = s.s_impl_library ∧
      s1.s_impl_loader = s.s_impl_loader ∧
      opened s1.trace = opened s.trace ∧
      env_reads s1.trace = env_reads s.trace ∧
      lookups s1.trace = lookups s.trace ++
        (if s.s_impl_loader ≠ 0 then [] else names.map fun n => (s.s_impl_library, n)) ∧
      delegations s1.trace = delegations s.trace ++
        (if s.s_impl_loader ≠ 0 then names.map fun n => (s.s_impl_loader, n) else []) ∧
      (s.s_impl_loader ≠ 0 → diagnostics s1.trace = diagnostics s.trace) := by
  induction names generalizing s with
  | nil => exact ⟨s, by simp [calls]⟩
  | cons n rest ih =>
    obtain ⟨s1, hc, hlib, hldr, hop, henv, hlk, hdl, hdg⟩ := forward_object_cases B W n s
    rcases hc with ⟨-, hf⟩ | ⟨hnot, -⟩
    · obtain ⟨s2, hc2, hlib2, hldr2, hop2, henv2, hlk2, hdl2, hdg2⟩ :=
        ih s1 (by rw [hlib]; exact h) (by
          intro m hm
          rw [hlib, hldr]
          exact hfit m (List.mem_cons_of_mem _ hm))
      refine ⟨s2, ?_, by rw [hlib2, hlib], by rw [hldr2, hldr], by rw [hop2, hop],
        by rw [henv2, henv], ?_, ?_, ?_⟩
      · simp only [calls, wpe_load_object_ready B W n s h, hf, hc2, hlib, hldr,
          List.map_cons, Outcome.bind]
      · rw [hlk2, hlk, hlib, hldr]
        split_ifs <;> simp
      · rw [hdl2, hdl, hldr]
        split_ifs <;> simp
      · intro hne
        rw [hdg2 (by rw [hldr]; exact hne), hdg hne]
    · exact absurd (hfit n (List.mem_cons_self _ _)) hnot

/-- In a returning sequence of requests made with a library already stored, no
direct lookup overflowed. -/
theorem calls_returned_fits (B : Build) (W : World) (names : List String) (s sf : State)
    (values : List Ptr) (h : s.s_impl_library ≠ 0)
    (hc : calls B W names s = .returned values sf) :
    ∀ n ∈ names, s.s_impl_loader ≠ 0 ∨ symbol_fits B W s.s_impl_library n := by
  induction names generalizing s values sf with
  | nil => intro n hn; cases hn
  | cons m rest ih =>
    simp only [calls, wpe_load_object_ready B W m s h] at hc
    cases hf : forward_object B W m s with
    | returned v s1 =>
      rw [hf] at hc
      simp only [Outcome.bind] at hc
      obtain ⟨hfit, -, hlib, hldr, -⟩ := forward_object_returned_spec B W m s s1 v hf
      cases hr : calls B W rest s1 with
      | returned vs s2 =>
        intro n hn
        rcases List.mem_cons.mp hn with rfl | hn
        · exact hfit
        · have := ih s1 s2 vs (by rw [hlib]; exact h) hr n hn
          rwa [hlib, hldr] at this
      | aborted s2 =>
        rw [hr] at hc
        cases hc
      | overflowed s2 =>
        rw [hr] at hc
        cases hc
    | aborted s1 =>
      rw [hf] at hc
      cases hc
    | overflowed s1 =>
      rw [hf] at hc
      cases hc

/-- The situation of a request made after any number of earlier requests, in a
process whose resolution returns in state `s1`, when no earlier direct lookup
overflows: the earlier requests all return, and the request is served from a
state `mid` (the state `s1` itself for a first request) that has the statics of
`s1`, the interface lookup of the resolution followed by the earlier direct
lookups, and the earlier delegations. -/
theorem request_after_calls (B : Build) (W : World) (s1 : State)
    (hload : load_impl_library B W State.init = .returned () s1)
    (earlier : List String)
    (hfit : ∀ n ∈ earlier, s1.s_impl_loader ≠ 0 ∨ symbol_fits B W s1.s_impl_library n) :
    ∃ s mid, calls B W earlier State.init =
        .returned (earlier.map fun n => if s1.s_impl_loader ≠ 0 then
          W.load_object s1.s_impl_loader n else W.dlsym s1.s_impl_library n) s ∧
      (∀ n, wpe_load_object B W n s = forward_object B W n mid) ∧
      mid = (if earlier = [] then s1 else s) ∧
      mid.s_impl_library = s1.s_impl_library ∧
      mid.s_impl_loader = s1.s_impl_loader ∧
      lookups mid.trace = (s1.s_impl_library, "_wpe_loader_interface") ::
        (if s1.s_impl_loader ≠ 0 then []
          else earlier.map fun n => (s1.s_impl_library, n)) ∧
      delegations mid.trace =
        (if s1.s_impl_loader ≠ 0 then earlier.map fun n => (s1.s_impl_loader, n)
          else []) ∧
      (B.WIN32 = false ∨ s1.s_impl_loader ≠ 0 →
        diagnostics mid.trace = diagnostics s.trace) ∧
      (s1.s_impl_loader ≠ 0 → diagnostics mid.trace = []) := by
  obtain ⟨hlib, -, -, hlk, hdl, hdg, -⟩ :=
    load_impl_library_returned_spec B W State.init s1 hload
  have hlk1 : lookups s1.trace = [(s1.s_impl_library, "_wpe_loader_interface")] := by
    simpa [lookups, State.init] using hlk
  have hdl1 : delegations s1.trace = [] := by simpa [delegations, State.init] using hdl
  have hdg1 : B.WIN32 = false ∨ s1.s_impl_loader ≠ 0 → diagnostics s1.trace = [] := by
    intro hq
    simpa [diagnostics, State.init] using hdg hq
  cases earlier with
  | nil =>
    refine ⟨State.init, s1, by simp [calls],
      fun n => wpe_load_object_first B W n State.init s1 rfl hload, rfl, rfl, rfl,
      ?_, ?_, ?_, ?_⟩
    · rw [hlk1]
      split_ifs <;> simp
    · rw [hdl1]
      split_ifs <;> simp
    · intro hq
      rw [hdg1 hq]
      rfl
    · intro hq
      exact hdg1 (Or.inr hq)
  | cons e rest =>
    have hw := wpe_load_object_first B W e State.init s1 rfl hload
    obtain ⟨s2, hc2, hlib2, hldr2, -, -, hlk2, hdl2, hdg2⟩ := forward_object_cases B W e s1
    rcases hc2 with ⟨-, hf⟩ | ⟨hnot, -⟩
    · rw [hf] at hw
      have hready : s2.s_impl_library ≠ 0 := by rw [hlib2]; exact hlib
      obtain ⟨s, hc, hlibs, hldrs, -, -, hlks, hdls, hdgs⟩ :=
        calls_ready B W rest s2 hready (by
          intro m hm
          rw [hlib2, hldr2]
          exact hfit m (List.mem_cons_of_mem _ hm))
      refine ⟨s, s, ?_,
        fun n => wpe_load_object_ready B W n s (by rw [hlibs]; exact hready),
        by simp, by rw [hlibs, hlib2], by rw [hldrs, hldr2], ?_, ?_, fun _ => rfl, ?_⟩
      · simp only [calls, hw, hc, hlib2, hldr2, List.map_cons, Outcome.bind]
      · rw [hlks, hlk2, hlk1, hlib2, hldr2]
        split_ifs <;> simp
      · rw [hdls, hdl2, hdl1, hldr2]
        split_ifs <;> simp
      · intro hq
        rw [hdgs (by rw [hldr2]; exact hq), hdg2 hq]
        exact hdg1 (Or.inr hq)
    · exact absurd (hfit e (List.mem_cons_self _ _)) hnot

/-- On POSIX, and whenever the symbol resolves, `loadsymbol` is the bare lookup. -/
theorem loadsymbol_silent (B : Build) (W : World) (library : Ptr) (symbol : String)
    (s : State) (hq : B.WIN32 = false ∨ W.dlsym library symbol ≠ 0) :
    loadsymbol B W library symbol s =
      .returned (W.dlsym library symbol) (emit (.dlsym library symbol) s) := by
  unfold loadsymbol
  dsimp only
  rcases hq with hp | hne
  · rw [hp]
    rfl
  · rw [if_neg hne]
    split_ifs <;> rfl

/-- In the WIN32 build a failed lookup whose message fits goes through
`report_last_error`. -/
theorem loadsymbol_win32_absent (B : Build) (W : World) (library : Ptr) (symbol : String)
    (s : State) (hw : B.WIN32 = true) (h0 : W.dlsym library symbol = 0)
    (hfit : symbol.length + 22 < MESSAGE_SIZE) :
    loadsymbol B W library symbol s =
      .returned 0 (report_last_error B W
        ⟨"Failed to load symbol ".data ++ (symbol.data ++ [])⟩
        (emit (.dlsym library symbol) s)) := by
  unfold loadsymbol
  dsimp only
  rw [if_pos hw, if_pos h0, sprintf_symbol, if_pos hfit, h0]

/-- The diagnostics of a returning `loadsymbol`: at most one, none on POSIX or
when the symbol resolves. -/
theorem loadsymbol_returned_diagnostics (B : Build) (W : World) (library : Ptr)
    (symbol : String) (s sl : State) (value : Ptr)
    (h : loadsymbol B W library symbol s = .returned value sl) :
    ∃ own, diagnostics sl.trace = diagnostics s.trace ++ own ∧ own.length ≤ 1 ∧
      (B.WIN32 = false ∨ W.dlsym library symbol ≠ 0 → own = []) := by
  have hemit : diagnostics (emit (.dlsym library symbol) s).trace = diagnostics s.trace := by
    simp [emit, diagnostics]
  by_cases hq : B.WIN32 = false ∨ W.dlsym library symbol ≠ 0
  · rw [loadsymbol_silent B W library symbol s hq] at h
    injection h with _ hs
    subst hs
    exact ⟨[], by rw [hemit, List.append_nil], by simp, fun _ => rfl⟩
  · have hw : B.WIN32 = true := by
      cases hb : B.WIN32
      · exact absurd (Or.inl hb) hq
      · rfl
    have h0 : W.dlsym library symbol = 0 := by
      by_contra hne
      exact hq (Or.inr hne)
    by_cases hfit : symbol.length + 22 < MESSAGE_SIZE
    · rw [loadsymbol_win32_absent B W library symbol s hw h0 hfit] at h
      injection h with _ hs
      subst hs
      unfold report_last_error
      dsimp only
      split_ifs with he
      · have hr := report_error_spec B "wpe: %s: %s\n"
          [⟨"Failed to load symbol ".data ++ (symbol.data ++ [])⟩,
            W.FormatMessageA (W.GetLastError (emit (.dlsym library symbol) s).trace)]
          (emit (.dlsym library symbol) s)
        exact ⟨_, by rw [hr.2.2.2.2.2.2, hemit], by simp, fun hq2 => absurd hq2 hq⟩
      · exact ⟨[], by rw [hemit, List.append_nil], by simp, fun _ => rfl⟩
    · obtain ⟨s1, hc, -⟩ := loadsymbol_cases B W library symbol s
      rcases hc with ⟨hf, -⟩ | ⟨-, hov⟩
      · exact absurd (hf hw h0) hfit
      · rw [hov] at h
        cases h

/-- The expansion of the diagnostic of `wpe_load_object`. -/
theorem vformat_object_name (object_name : String) :
    vformat "wpe_load_object: failed to load object with name '%s'\n".data [object_name] =
      "wpe_load_object: failed to load object with name '".data ++
        (object_name.data ++ "'\n".data) := rfl

/-- The length of the diagnostic of `wpe_load_object`. -/
theorem vformat_object_name_length (object_name : String) :
    ("wpe_load_object: failed to load object with name '".data ++
      (object_name.data ++ "'\n".data)).length = object_name.length + 52 := by
  rw [List.length_append, List.length_append]
  show 50 + (object_name.data.length + 2) = object_name.data.length + 52
  omega

/-- A diagnostic of `wpe_load_object` that fits the buffer is held there whole,
and its length is the count. -/
theorem object_name_msg_fits (object_name : String)
    (h : object_name.length + 52 < MSG_SIZE) :
    (⟨("wpe_load_object: failed to load object with name '".data ++
        (object_name.data ++ "'\n".data)).take (MSG_SIZE - 1)⟩ : String) =
      "wpe_load_object: failed to load object with name '" ++ object_name ++ "'\n" ∧
    size_t_of_int (vsnprintf_return (object_name.length + 52)) =
      object_name.length + 52 := by
  constructor
  · rw [List.take_of_length_le
      (by rw [vformat_object_name_length]; unfold MSG_SIZE at h ⊢; omega)]
    apply String.ext
    rw [String.data_append, String.data_append, List.append_assoc]
  · apply size_t_of_vsnprintf_return
    unfold MSG_SIZE at h
    unfold INT_MAX
    omega

/-- The direct-lookup branch of `forward_object` when `loadsymbol` does not
overflow: the value of the lookup is returned; a found symbol adds no diagnostic,
an absent one adds what `loadsymbol` reported (nothing on POSIX, at most one
diagnostic otherwise) followed by the request's own message. -/
theorem forward_object_legacy_diagnostics (B : Build) (W : World) (object_name : String)
    (s : State) (h : s.s_impl_loader = 0)
    (hfit : symbol_fits B W s.s_impl_library object_name) :
    ∃ s1 own, forward_object B W object_name s =
        .returned (W.dlsym s.s_impl_library object_name) s1 ∧
      own.length ≤ 1 ∧
      (B.WIN32 = false → own = []) ∧
      (W.dlsym s.s_impl_library object_name ≠ 0 →
        diagnostics s1.trace = diagnostics s.trace) ∧
      (W.dlsym s.s_impl_library object_name = 0 →
        diagnostics s1.trace = diagnostics s.trace ++ own ++
          [(⟨("wpe_load_object: failed to load object with name '".data ++
              (object_name.data ++ "'\n".data)).take (MSG_SIZE - 1)⟩,
            size_t_of_int (vsnprintf_return (object_name.length + 52)))]) := by
  obtain ⟨sl, hc, -⟩ := loadsymbol_cases B W s.s_impl_library object_name s
  rcases hc with ⟨-, hret⟩ | ⟨hnot, -⟩
  · obtain ⟨own, hown, hlen, hnil⟩ :=
      loadsymbol_returned_diagnostics B W s.s_impl_library object_name s sl _ hret
    rw [forward_object_legacy B W object_name s sl _ h hret]
    refine ⟨_, own, rfl, hlen, fun hp => hnil (Or.inl hp), ?_, ?_⟩
    · intro hne
      rw [if_neg hne, hown, hnil (Or.inr hne), List.append_nil]
    · intro h0
      rw [if_pos h0]
      have hr := report_error_spec B
        "wpe_load_object: failed to load object with name '%s'\n" [object_name] sl
      rw [hr.2.2.2.2.2.2, hown, vformat_object_name, vformat_object_name_length]
  · exact absurd hfit hnot

/-- The expansion of the diagnostic `loadsymbol` reports under WIN32. -/
theorem vformat_symbol (symbol reason : String) :
    vformat "wpe: %s: %s\n".data
        [⟨"Failed to load symbol ".data ++ (symbol.data ++ [])⟩, reason] =
      "wpe: Failed to load symbol ".data ++
        (symbol.data ++ (": ".data ++ (reason.data ++ "\n".data))) := by
  show "wpe: ".data ++ (("Failed to load symbol ".data ++ (symbol.data ++ [])) ++
    (": ".data ++ (reason.data ++ "\n".data))) = _
  rw [List.append_nil, List.append_assoc, ← List.append_assoc "wpe: ".data]
  rfl

/-- The length of the diagnostic `loadsymbol` reports under WIN32. -/
theorem vformat_symbol_length (symbol reason : String) :
    ("wpe: Failed to load symbol ".data ++
      (symbol.data ++ (": ".data ++ (reason.data ++ "\n".data)))).length =
      symbol.length + reason.length + 30 := by
  simp only [List.length_append]
  show 27 + (symbol.data.length + (2 + (reason.data.length + 1))) =
    symbol.data.length + reason.data.length + 30
  omega

/-- A WIN32 `loadsymbol` diagnostic that fits the buffer is held there whole, and
its length is the count. -/
theorem symbol_msg_fits (symbol reason : String)
    (h : symbol.length + reason.length + 30 < MSG_SIZE) :
    (⟨("wpe: Failed to load symbol ".data ++
        (symbol.data ++ (": ".data ++ (reason.data ++ "\n".data)))).take (MSG_SIZE - 1)⟩ :
        String) =
      "wpe: Failed to load symbol " ++ symbol ++ ": " ++ reason ++ "\n" ∧
    size_t_of_int (vsnprintf_return (symbol.length + reason.length + 30)) =
      symbol.length + reason.length + 30 := by
  constructor
  · rw [List.take_of_length_le
      (by rw [vformat_symbol_length]; unfold MSG_SIZE at h ⊢; omega)]
    apply String.ext
    simp only [String.data_append, List.append_assoc]
  · apply size_t_of_vsnprintf_return
    unfold MSG_SIZE at h
    unfold INT_MAX
    omega

/-- A returning `wpe_load_object` leaves a non-null library handle, and keeps or
establishes the link between the two statics. -/
theorem wpe_load_object_returned_inv (B : Build) (W : World) (object_name : String)
    (s s1 : State) (value : Ptr)
    (h : wpe_load_object B W object_name s = .returned value s1) :
    s1.s_impl_library ≠ 0 ∧
    ((s.s_impl_loader ≠ 0 → s.s_impl_library ≠ 0 ∧
        s.s_impl_loader = W.dlsym s.s_impl_library "_wpe_loader_interface" ∧
        (s.s_impl_library, "_wpe_loader_interface") ∈ lookups s.trace) →
      (s1.s_impl_loader ≠ 0 → s1.s_impl_library ≠ 0 ∧
        s1.s_impl_loader = W.dlsym s1.s_impl_library "_wpe_loader_interface" ∧
        (s1.s_impl_library, "_wpe_loader_interface") ∈ lookups s1.trace)) := by
  rcases wpe_load_object_returned_cases B W object_name s s1 value h with
    ⟨hs, hf⟩ | ⟨-, s0, hload, hf⟩
  · obtain ⟨-, -, hlib, hldr, -, -, hlk, -, -⟩ :=
      forward_object_returned_spec B W object_name s s1 value hf
    have hready : s1.s_impl_library ≠ 0 := by rw [hlib]; exact hs
    refine ⟨hready, fun hinv hne => ?_⟩
    obtain ⟨-, h2, h3⟩ := hinv (by rw [← hldr]; exact hne)
    refine ⟨hready, by rw [hldr, hlib]; exact h2, ?_⟩
    rw [hlk, hlib]
    exact List.mem_append_left _ h3
  · obtain ⟨hlib0, hldr0, -, hlk0, -, -, -⟩ := load_impl_library_returned_spec B W s s0 hload
    obtain ⟨-, -, hlib, hldr, -, -, hlk, -, -⟩ :=
      forward_object_returned_spec B W object_name s0 s1 value hf
    have hready : s1.s_impl_library ≠ 0 := by rw [hlib]; exact hlib0
    refine ⟨hready, fun _ _ => ⟨hready, by rw [hldr, hlib]; exact hldr0, ?_⟩⟩
    rw [hlk, hlk0, hlib]
    simp

/-- A returning step leaves a non-null library handle and keeps or establishes
the link between the two statics. -/
theorem step_returned_inv (B : Build) (W : World) (st : Step) (s s1 : State)
    (h : step B W st s = some s1) :
    s1.s_impl_library ≠ 0 ∧
    ((s.s_impl_loader ≠ 0 → s.s_impl_library ≠ 0 ∧
        s.s_impl_loader = W.dlsym s.s_impl_library "_wpe_loader_interface" ∧
        (s.s_impl_library, "_wpe_loader_interface") ∈ lookups s.trace) →
      (s1.s_impl_loader ≠ 0 → s1.s_impl_library ≠ 0 ∧
        s1.s_impl_loader = W.dlsym s1.s_impl_library "_wpe_loader_interface" ∧
        (s1.s_impl_library, "_wpe_loader_interface") ∈ lookups s1.trace)) := by
  cases st with
  | wpe_load_object object_name =>
    simp only [step] at h
    split at h
    · rename_i value s2 heq
      injection h with hs
      subst hs
      exact wpe_load_object_returned_inv B W object_name s _ value heq
    · cases h
  | load_impl_library =>
    simp only [step] at h
    split at h
    · rename_i u s2 heq
      injection h with hs
      subst hs
      obtain ⟨hlib, hldr, -, hlk, -, -, -⟩ := load_impl_library_returned_spec B W s _ heq
      refine ⟨hlib, fun _ _ => ⟨hlib, hldr, ?_⟩⟩
      rw [hlk]
      simp
    · cases h

/-- Whatever way `openlibrary` ends, it has opened the name once and read no
variable. -/
theorem openlibrary_observed (B : Build) (W : World) (name context : String) (s : State) :
    opened (openlibrary B W name context s).state.trace = opened s.trace ++ [name] ∧
    env_reads (openlibrary B W name context s).state.trace = env_reads s.trace ∧
    lookups (openlibrary B W name context s).state.trace = lookups s.trace ∧
    delegations (openlibrary B W name context s).state.trace = delegations s.trace := by
  obtain ⟨s1, hc, -, -, h3, h4, h5, h6, -⟩ := openlibrary_cases B W name context s
  rcases hc with ⟨-, hret⟩ | ⟨-, hov⟩
  · rw [hret]
    exact ⟨h3, h4, h5, h6⟩
  · rw [hov]
    exact ⟨h3, h4, h5, h6⟩

/-- Whatever way `load_impl_library` ends, its opens, variable reads and
delegations are those of its open, and so are its lookups when it does not
return. -/
theorem load_impl_library_observed (B : Build) (W : World) (s : State) :
    opened (load_impl_library B W s).state.trace =
      opened (open_impl_library B W s).state.trace ∧
    env_reads (load_impl_library B W s).state.trace =
      env_reads (open_impl_library B W s).state.trace ∧
    delegations (load_impl_library B W s).state.trace =
      delegations (open_impl_library B W s).state.trace ∧
    ((∀ s1, load_impl_library B W s ≠ .returned () s1) →
      lookups (load_impl_library B W s).state.trace =
        lookups (open_impl_library B W s).state.trace) := by
  cases ho : open_impl_library B W s with
  | returned handle s0 =>
    by_cases h0 : handle = 0
    · subst h0
      rw [load_impl_library_of_open_failed B W s s0 ho]
      exact ⟨rfl, rfl, rfl, fun _ => rfl⟩
    · obtain ⟨s1, hl, -, -, g3, g4, -, g6, -⟩ :=
        load_impl_library_of_open_ok B W s s0 handle ho h0
      rw [hl]
      exact ⟨g3, g4, g6, fun hnot => absurd rfl (hnot s1)⟩
  | aborted s0 =>
    have : load_impl_library B W s = .aborted s0 := by
      simp [load_impl_library, ho, Outcome.bind]
    rw [this]
    exact ⟨rfl, rfl, rfl, fun _ => rfl⟩
  | overflowed s0 =>
    rw [load_impl_library_of_open_overflowed B W s s0 ho]
    exact ⟨rfl, rfl, rfl, fun _ => rfl⟩

/-! ## Resolution order -/

/-- C1: resolution order of `load_impl_library`. With a compile-time `WPE_BACKEND`
the one name opened is that name and no environment variable is read; without it
the name is the value of `WPE_BACKEND_LIBRARY` when that is set to a non-empty
string, and the platform default filename when the variable is unset. -/
theorem load_impl_library_resolution_order (B : Build) (W : World) (s : State) :
    (∀ backend, B.WPE_BACKEND = some backend →
      opened (load_impl_library B W s).state.trace = opened s.trace ++ [backend] ∧
      env_reads (load_impl_library B W s).state.trace = env_reads s.trace) ∧
    (∀ value, B.WPE_BACKEND = none → W.getenv "WPE_BACKEND_LIBRARY" = some value →
      value ≠ "" →
      opened (load_impl_library B W s).state.trace = opened s.trace ++ [value]) ∧
    (B.WPE_BACKEND = none → W.getenv "WPE_BACKEND_LIBRARY" = none →
      opened (load_impl_library B W s).state.trace = opened s.trace ++ [library_name B]) ∧
    (B.WIN32 = false → library_name B = "libWPEBackend-default.so") ∧
    (B.WIN32 = true → library_name B = "WPEBackend-default.dll") := by
  obtain ⟨hop, henv, -, -⟩ := load_impl_library_observed B W s
  refine ⟨?_, ?_, ?_, ?_, ?_⟩
  · intro backend hb
    rw [hop, henv]
    simp only [open_impl_library, hb]
    exact ⟨(openlibrary_observed B W _ _ s).1, (openlibrary_observed B W _ _ s).2.1⟩
  · intro value hb hv _
    rw [hop]
    simp only [open_impl_library, hb, hv]
    rw [(openlibrary_observed B W _ _ _).1]
    simp [emit, opened]
  · intro hb hv
    rw [hop]
    simp only [open_impl_library, hb, hv]
    rw [(openlibrary_observed B W _ _ _).1]
    simp [emit, opened]
  · intro h
    simp [library_name, h]
  · intro h
    simp [library_name, h]

/-- C1, at concrete inputs: a pinned build opens its compile-time name and reads
no variable although `WPE_BACKEND_LIBRARY` is set; an unpinned build opens the
variable's value; with the variable unset it opens the default filename. -/
theorem load_impl_library_resolution_order_witness :
    (pinnedBuild.WPE_BACKEND = some "libWPEBackend-fdo.so" ∧
      opened (load_impl_library pinnedBuild (envWorld "libWPEBackend-rdk.so")
        State.init).state.trace = opened State.init.trace ++ ["libWPEBackend-fdo.so"] ∧
      env_reads (load_impl_library pinnedBuild (envWorld "libWPEBackend-rdk.so")
        State.init).state.trace = env_reads State.init.trace) ∧
    ((envWorld "libWPEBackend-rdk.so").getenv "WPE_BACKEND_LIBRARY" =
        some "libWPEBackend-rdk.so" ∧
      opened (load_impl_library posixBuild (envWorld "libWPEBackend-rdk.so")
        State.init).state.trace = opened State.init.trace ++ ["libWPEBackend-rdk.so"]) ∧
    (legacyWorld.getenv "WPE_BACKEND_LIBRARY" = none ∧
      opened (load_impl_library win32Build legacyWorld State.init).state.trace =
        opened State.init.trace ++ [library_name win32Build]) :=
  ⟨⟨rfl, (load_impl_library_resolution_order pinnedBuild
      (envWorld "libWPEBackend-rdk.so") State.init).1 "libWPEBackend-fdo.so" rfl⟩,
    ⟨rfl, (load_impl_library_resolution_order posixBuild
      (envWorld "libWPEBackend-rdk.so") State.init).2.1 "libWPEBackend-rdk.so" rfl rfl
        (by decide)⟩,
    ⟨rfl, (load_impl_library_resolution_order win32Build legacyWorld
      State.init).2.2.1 rfl rfl⟩⟩

/-- C2, refuted as stated: with no compile-time backend and `WPE_BACKEND_LIBRARY`
set to the empty string, `load_impl_library` opens the empty name; the default
filename, which exists in this world, is not opened and the process aborts. -/
theorem load_impl_library_empty_env_opens_empty_name :
    posixBuild.WPE_BACKEND = none ∧
    (envWorld "").getenv "WPE_BACKEND_LIBRARY" = some "" ∧
    (envWorld "").dlopen (library_name posixBuild) ≠ 0 ∧
    opened (load_impl_library posixBuild (envWorld "") State.init).state.trace = [""] ∧
    library_name posixBuild ∉
      opened (load_impl_library posixBuild (envWorld "") State.init).state.trace ∧
    load_impl_library posixBuild (envWorld "") State.init =
      .aborted (load_impl_library posixBuild (envWorld "") State.init).state :=
  ⟨rfl, rfl, by decide, by decide, by decide, rfl⟩

/-- C2, amended: with no compile-time backend, `WPE_BACKEND_LIBRARY` is used
whenever it is present, the empty string included (the empty name is then the one
opened); the default filename is opened only when the variable is unset. -/
theorem load_impl_library_env_present (B : Build) (W : World) (s : State)
    (hb : B.WPE_BACKEND = none) :
    (∀ value, W.getenv "WPE_BACKEND_LIBRARY" = some value →
      opened (load_impl_library B W s).state.trace = opened s.trace ++ [value]) ∧
    (W.getenv "WPE_BACKEND_LIBRARY" = some "" →
      opened (load_impl_library B W s).state.trace = opened s.trace ++ [""]) ∧
    (W.getenv "WPE_BACKEND_LIBRARY" = none →
      opened (load_impl_library B W s).state.trace = opened s.trace ++ [library_name B]) := by
  obtain ⟨hop, -, -, -⟩ := load_impl_library_observed B W s
  have key : ∀ value, W.getenv "WPE_BACKEND_LIBRARY" = some value →
      opened (load_impl_library B W s).state.trace = opened s.trace ++ [value] := by
    intro value hv
    rw [hop]
    simp only [open_impl_library, hb, hv]
    rw [(openlibrary_observed B W _ _ _).1]
    simp [emit, opened]
  refine ⟨key, key "", ?_⟩
  intro hv
  rw [hop]
  simp only [open_impl_library, hb, hv]
  rw [(openlibrary_observed B W _ _ _).1]
  simp [emit, opened]

/-- C2, amended, at a concrete input: the empty value is the name opened. -/
theorem load_impl_library_env_present_witness :
    posixBuild.WPE_BACKEND = none ∧
    (envWorld "").getenv "WPE_BACKEND_LIBRARY" = some "" ∧
    opened (load_impl_library posixBuild (envWorld "") State.init).state.trace =
      opened State.init.trace ++ [""] :=
  ⟨rfl, rfl, (load_impl_library_env_present posixBuild (envWorld "") State.init rfl).2.1 rfl⟩

/-- C3: one resolution makes exactly one open attempt, of a name whose handle is
what the attempt returns. When the attempt returns the null handle,
`load_impl_library` aborts without any further open, without any symbol lookup
and without any delegation, and a `wpe_load_object` call that triggers the
resolution aborts with it, so no call of the sequence returns. However the
failed attempt ends (in the WIN32 build `openlibrary` does not return when its
message overflows the array), the resolution still opens that one name only,
looks nothing up, delegates nothing and lets no call return. -/
theorem load_impl_library_commits_to_first_tier (B : Build) (W : World) (s : State) :
    (∃ name, opened (load_impl_library B W s).state.trace = opened s.trace ++ [name] ∧
      ∀ handle s0, open_impl_library B W s = .returned handle s0 →
        handle = W.dlopen name) ∧
    (∀ s0, open_impl_library B W s = .returned 0 s0 →
      load_impl_library B W s = .aborted (load_impl_library B W s).state ∧
      lookups (load_impl_library B W s).state.trace = lookups s.trace ∧
      delegations (load_impl_library B W s).state.trace = delegations s.trace ∧
      (s.s_impl_library = 0 → ∀ object_name rest,
        wpe_load_object B W object_name s = .aborted (load_impl_library B W s).state ∧
        calls B W (object_name :: rest) s =
          .aborted (load_impl_library B W s).state)) ∧
    (∀ name, opened (load_impl_library B W s).state.trace = opened s.trace ++ [name] →
      W.dlopen name = 0 →
      (load_impl_library B W s = .aborted (load_impl_library B W s).state ∨
        (B.WIN32 = true ∧
          load_impl_library B W s = .overflowed (load_impl_library B W s).state)) ∧
      lookups (load_impl_library B W s).state.trace = lookups s.trace ∧
      delegations (load_impl_library B W s).state.trace = delegations s.trace ∧
      (s.s_impl_library = 0 → ∀ object_name rest,
        (calls B W (object_name :: rest) s).state = (load_impl_library B W s).state ∧
        (∀ value s1, wpe_load_object B W object_name s ≠ .returned value s1) ∧
        (∀ values final, calls B W (object_name :: rest) s ≠ .returned values final))) := by
  obtain ⟨name1, context, s0, hc, -, -, hop0, hlk0, hdl0, -⟩ := open_impl_library_cases B W s
  obtain ⟨hop, -, -, -⟩ := load_impl_library_observed B W s
  have hstate : (open_impl_library B W s).state = s0 := by
    rcases hc with ⟨-, hret⟩ | ⟨-, hov⟩
    · rw [hret]; rfl
    · rw [hov]; rfl
  have hopened : opened (load_impl_library B W s).state.trace = opened s.trace ++ [name1] := by
    rw [hop, hstate, hop0]
  have hfailed : ∀ s2, open_impl_library B W s = .returned 0 s2 →
      load_impl_library B W s = .aborted (load_impl_library B W s).state ∧
      lookups (load_impl_library B W s).state.trace = lookups s.trace ∧
      delegations (load_impl_library B W s).state.trace = delegations s.trace ∧
      (s.s_impl_library = 0 → ∀ object_name rest,
        wpe_load_object B W object_name s = .aborted (load_impl_library B W s).state ∧
        calls B W (object_name :: rest) s =
          .aborted (load_impl_library B W s).state) := by
    intro s2 h
    have hs2 : s2 = s0 := by
      rw [h] at hstate
      exact hstate
    subst hs2
    have hl := load_impl_library_of_open_failed B W s s2 h
    rw [hl]
    refine ⟨rfl, hlk0, hdl0, ?_⟩
    intro hs object_name rest
    have hw : wpe_load_object B W object_name s =
        .aborted { s2 with s_impl_library := 0 } := by
      simp [wpe_load_object, hs, hl, Outcome.bind]
    exact ⟨hw, by simp [calls, hw, Outcome.bind, Outcome.state]⟩
  refine ⟨⟨name1, hopened, ?_⟩, hfailed, ?_⟩
  · intro handle s2 h
    rcases hc with ⟨-, hret⟩ | ⟨-, hov⟩
    · rw [hret] at h
      injection h with hv _
      exact hv.symm
    · rw [hov] at h
      cases h
  · intro name hname h0
    have hn : name = name1 := by
      rw [hopened] at hname
      have := List.append_cancel_left hname
      injection this with h1 _
      exact h1.symm
    subst hn
    rcases hc with ⟨-, hret⟩ | ⟨hnot, hov⟩
    · rw [h0] at hret
      obtain ⟨g1, g2, g3, g4⟩ := hfailed s0 hret
      refine ⟨Or.inl g1, g2, g3, ?_⟩
      intro hs object_name rest
      obtain ⟨k1, k2⟩ := g4 hs object_name rest
      refine ⟨by rw [k2]; rfl, ?_, ?_⟩
      · intro value s1 h
        rw [k1] at h
        cases h
      · intro values final h
        rw [k2] at h
        cases h
    · have hw : B.WIN32 = true := by
        by_contra hne
        exact hnot (fun h => absurd h hne)
      have hl := load_impl_library_of_open_overflowed B W s s0 hov
      rw [hl]
      refine ⟨Or.inr ⟨hw, rfl⟩, hlk0, hdl0, ?_⟩
      intro hs object_name rest
      have hwpe : wpe_load_object B W object_name s = .overflowed s0 := by
        simp [wpe_load_object, hs, hl, Outcome.bind]
      have hcalls : calls B W (object_name :: rest) s = .overflowed s0 := by
        simp [calls, hwpe, Outcome.bind]
      refine ⟨by rw [hcalls]; rfl, ?_, ?_⟩
      · intro value s1 h
        rw [hwpe] at h
        cases h
      · intro values final h
        rw [hcalls] at h
        cases h

set_option maxRecDepth 8000 in
/-- C3, at concrete inputs: a pinned name that fails to open aborts although the
variable names a library that exists, and a variable naming a missing file aborts
although the default library exists; each run opens one name only. In a WIN32
build a missing file whose name has 200 characters is still the only name opened
and no call returns. -/
theorem load_impl_library_commits_to_first_tier_witness :
    (open_impl_library pinnedBuild (envWorld "libWPEBackend-default.so") State.init =
        .returned 0 (open_impl_library pinnedBuild (envWorld "libWPEBackend-default.so")
          State.init).state ∧
      calls pinnedBuild (envWorld "libWPEBackend-default.so") ["foo", "bar"] State.init =
        .aborted (load_impl_library pinnedBuild (envWorld "libWPEBackend-default.so")
          State.init).state ∧
      opened (load_impl_library pinnedBuild (envWorld "libWPEBackend-default.so")
        State.init).state.trace = ["libWPEBackend-fdo.so"]) ∧
    (open_impl_library posixBuild (envWorld "/nonexistent.so") State.init =
        .returned 0 (open_impl_library posixBuild (envWorld "/nonexistent.so")
          State.init).state ∧
      calls posixBuild (envWorld "/nonexistent.so") ["foo", "bar"] State.init =
        .aborted (load_impl_library posixBuild (envWorld "/nonexistent.so")
          State.init).state ∧
      opened (load_impl_library posixBuild (envWorld "/nonexistent.so")
        State.init).state.trace = ["/nonexistent.so"]) ∧
    (opened (load_impl_library win32Build (envWorld ⟨List.replicate 200 'a'⟩)
        State.init).state.trace = opened State.init.trace ++ [⟨List.replicate 200 'a'⟩] ∧
      (envWorld ⟨List.replicate 200 'a'⟩).dlopen ⟨List.replicate 200 'a'⟩ = 0 ∧
      load_impl_library win32Build (envWorld ⟨List.replicate 200 'a'⟩) State.init =
        .overflowed (load_impl_library win32Build (envWorld ⟨List.replicate 200 'a'⟩)
          State.init).state ∧
      ∀ values final,
        calls win32Build (envWorld ⟨List.replicate 200 'a'⟩) ["foo", "bar"] State.init ≠
          .returned values final) :=
  ⟨⟨rfl,
      (((load_impl_library_commits_to_first_tier pinnedBuild
        (envWorld "libWPEBackend-default.so") State.init).2.1 _ rfl).2.2.2 rfl
          "foo" ["bar"]).2,
      by decide⟩,
    ⟨rfl,
      (((load_impl_library_commits_to_first_tier posixBuild
        (envWorld "/nonexistent.so") State.init).2.1 _ rfl).2.2.2 rfl
          "foo" ["bar"]).2,
      by decide⟩,
    ⟨rfl, rfl, rfl,
      (((load_impl_library_commits_to_first_tier win32Build
        (envWorld ⟨List.replicate 200 'a'⟩) State.init).2.2 _ rfl rfl).2.2.2 rfl
          "foo" ["bar"]).2.2⟩⟩

/-! ## One-time initialisation -/

/-- C4: in every sequence of `wpe_load_object` calls from the initial state in
which all calls return, the resolution runs during the first call and never
again: after the first call one name has been opened, and after any number of
later calls the two statics, the opens and the variable reads are still those
left by the first call, while the symbol lookups consist of the single interface
lookup of the resolution followed by the direct lookups of the requests (none
when the interface is present). All calls do return when the open of the
resolution yields a handle and, in the WIN32 build with the interface absent,
every requested name that is absent is short enough for the message array of
`loadsymbol`. -/
theorem wpe_load_object_initialises_once (B : Build) (W : World) (first : String)
    (later : List String) :
    (∀ values final, calls B W (first :: later) State.init = .returned values final →
      ∃ value s1 rest,
        wpe_load_object B W first State.init = .returned value s1 ∧
        values = value :: rest ∧
        calls B W later s1 = .returned rest final ∧
        s1.s_impl_library ≠ 0 ∧
        (∃ name, opened s1.trace = [name]) ∧
        ∀ k, ∃ vk sk, calls B W (later.take k) s1 = .returned vk sk ∧
          sk.s_impl_library = s1.s_impl_library ∧
          sk.s_impl_loader = s1.s_impl_loader ∧
          opened sk.trace = opened s1.trace ∧
          env_reads sk.trace = env_reads s1.trace ∧
          lookups sk.trace = (s1.s_impl_library, "_wpe_loader_interface") ::
            (if s1.s_impl_loader ≠ 0 then []
              else (first :: later.take k).map fun n => (s1.s_impl_library, n))) ∧
    (∀ handle s0, open_impl_library B W State.init = .returned handle s0 → handle ≠ 0 →
      (∀ n ∈ first :: later, B.WIN32 = true →
        W.dlsym handle "_wpe_loader_interface" = 0 → W.dlsym handle n = 0 →
        n.length + 22 < MESSAGE_SIZE) →
      ∃ values final, calls B W (first :: later) State.init = .returned values final) := by
  constructor
  · intro values final hc
    simp only [calls] at hc
    cases hw : wpe_load_object B W first State.init with
    | returned value s1 =>
      rw [hw] at hc
      simp only [Outcome.bind] at hc
      cases hr : calls B W later s1 with
      | returned rest s2 =>
        rw [hr] at hc
        injection hc with hv hs
        subst hs
        rcases wpe_load_object_returned_cases B W first State.init s1 value hw with
          ⟨hs, -⟩ | ⟨-, s0, hload, hf⟩
        · exact absurd rfl hs
        · obtain ⟨hlib0, -, ⟨name, hname, -⟩, hlk0, -, -, -⟩ :=
            load_impl_library_returned_spec B W State.init s0 hload
          obtain ⟨-, -, hlib, hldr, hop, -, hlk, -, -⟩ :=
            forward_object_returned_spec B W first s0 s1 value hf
          have hready : s1.s_impl_library ≠ 0 := by rw [hlib]; exact hlib0
          have hfit := calls_returned_fits B W later s1 s2 rest hready hr
          refine ⟨value, s1, rest, rfl, hv.symm, hr, hready,
            ⟨name, by rw [hop, hname]; rfl⟩, ?_⟩
          intro k
          obtain ⟨sk, hck, hlibk, hldrk, hopk, henvk, hlkk, -, -⟩ :=
            calls_ready B W (later.take k) s1 hready
              (fun n hn => hfit n (List.mem_of_mem_take hn))
          refine ⟨_, sk, hck, hlibk, hldrk, hopk, henvk, ?_⟩
          rw [hlkk, hlk, hlk0, hlib, hldr]
          split_ifs <;> simp [lookups, State.init]
      | aborted s2 =>
        rw [hr] at hc
        cases hc
      | overflowed s2 =>
        rw [hr] at hc
        cases hc
    | aborted s1 =>
      rw [hw] at hc
      cases hc
    | overflowed s1 =>
      rw [hw] at hc
      cases hc
  · intro handle s0 hopen hne hfit
    obtain ⟨s1, hload, hlib, hldr, -⟩ :=
      load_impl_library_of_open_ok B W State.init s0 handle hopen hne
    obtain ⟨s, -, hc, -⟩ := request_after_calls B W s1 hload (first :: later) (by
      intro n hn
      by_cases h0 : s1.s_impl_loader = 0
      · right
        intro hw hn0
        rw [hlib] at hn0
        rw [hldr] at h0
        exact hfit n hn hw h0 hn0
      · exact Or.inl h0)
    exact ⟨_, s, hc⟩

/-- C4, at a concrete input: three requests against a backend without the loader
interface, the second one asking for the interface symbol itself; the three
calls return and only the default library was opened, once. -/
theorem wpe_load_object_initialises_once_witness :
    calls posixBuild legacyWorld ["bar", "_wpe_loader_interface", "baz"] State.init =
      .returned [0, 0, 0]
        (calls posixBuild legacyWorld ["bar", "_wpe_loader_interface", "baz"]
          State.init).state ∧
    opened (calls posixBuild legacyWorld ["bar", "_wpe_loader_interface", "baz"]
      State.init).state.trace = ["libWPEBackend-default.so"] ∧
    (∃ value s1 rest,
      wpe_load_object posixBuild legacyWorld "bar" State.init = .returned value s1 ∧
      [0, 0, 0] = value :: rest ∧
      calls posixBuild legacyWorld ["_wpe_loader_interface", "baz"] s1 =
        .returned rest (calls posixBuild legacyWorld
          ["bar", "_wpe_loader_interface", "baz"] State.init).state ∧
      s1.s_impl_library ≠ 0 ∧
      (∃ name, opened s1.trace = [name]) ∧
      ∀ k, ∃ vk sk, calls posixBuild legacyWorld
          (["_wpe_loader_interface", "baz"].take k) s1 = .returned vk sk ∧
        sk.s_impl_library = s1.s_impl_library ∧
        sk.s_impl_loader = s1.s_impl_loader ∧
        opened sk.trace = opened s1.trace ∧
        env_reads sk.trace = env_reads s1.trace ∧
        lookups sk.trace = (s1.s_impl_library, "_wpe_loader_interface") ::
          (if s1.s_impl_loader ≠ 0 then []
            else ("bar" :: ["_wpe_loader_interface", "baz"].take k).map
              fun n => (s1.s_impl_library, n))) ∧
    (open_impl_library win32Build legacyWorld State.init =
        .returned 7 (open_impl_library win32Build legacyWorld State.init).state ∧
      ∃ values final, calls win32Build legacyWorld ["bar", "_wpe_loader_interface", "baz"]
        State.init = .returned values final) :=
  ⟨rfl, by decide,
    (wpe_load_object_initialises_once posixBuild legacyWorld "bar"
      ["_wpe_loader_interface", "baz"]).1 _ _ rfl,
    rfl,
    (wpe_load_object_initialises_once win32Build legacyWorld "bar"
      ["_wpe_loader_interface", "baz"]).2 7 _ rfl (by decide) (by decide)⟩

/-! ## Delegation to the loader interface -/

/-- C5: when the open of the resolution yields a library that exports
`_wpe_loader_interface`, the resolution returns (in a state `s1` holding that
library) and every `wpe_load_object` call, the very first one included, returns
the value of the interface's `load_object` applied to the unmodified name; the
only thing the call adds after the resolution (if it had to run) is that one
delegated call, the only symbol lookup of the whole run is the interface lookup
of the resolution, and all earlier calls returned the same way. -/
theorem wpe_load_object_delegates_verbatim (B : Build) (W : World) (handle : Ptr)
    (s0 : State) (hopen : open_impl_library B W State.init = .returned handle s0)
    (hne : handle ≠ 0)
    (hexp : W.dlsym handle "_wpe_loader_interface" ≠ 0)
    (earlier : List String) (object_name : String) :
    ∃ s1 s, load_impl_library B W State.init = .returned () s1 ∧
      s1.s_impl_library = handle ∧
      calls B W earlier State.init =
        .returned (earlier.map (W.load_object s1.s_impl_loader)) s ∧
      s1.s_impl_loader = W.dlsym s1.s_impl_library "_wpe_loader_interface" ∧
      wpe_load_object B W object_name s =
        .returned (W.load_object s1.s_impl_loader object_name)
          (emit (.load_object s1.s_impl_loader object_name)
            (if earlier = [] then s1 else s)) ∧
      lookups (wpe_load_object B W object_name s).state.trace =
        [(s1.s_impl_library, "_wpe_loader_interface")] ∧
      delegations (wpe_load_object B W object_name s).state.trace =
        (earlier ++ [object_name]).map fun n => (s1.s_impl_loader, n) := by
  obtain ⟨s1, hload, hlib, hldr, -⟩ :=
    load_impl_library_of_open_ok B W State.init s0 handle hopen hne
  have hnl : s1.s_impl_loader ≠ 0 := by rw [hldr]; exact hexp
  obtain ⟨s, mid, hc, hw, hmid, -, hldrm, hlk, hdl, -, -⟩ :=
    request_after_calls B W s1 hload earlier (fun _ _ => Or.inl hnl)
  have hnm : mid.s_impl_loader ≠ 0 := by rw [hldrm]; exact hnl
  simp only [hnl, ne_eq, not_false_eq_true, if_true] at hc hlk hdl
  have hwo : wpe_load_object B W object_name s =
      .returned (W.load_object s1.s_impl_loader object_name)
        (emit (.load_object s1.s_impl_loader object_name)
          (if earlier = [] then s1 else s)) := by
    rw [hw, forward_object_delegated B W object_name mid hnm, hldrm, hmid]
  refine ⟨s1, s, hload, hlib, hc, by rw [hldr, hlib], hwo, ?_, ?_⟩
  · rw [hwo, ← hmid]
    show lookups (mid.trace ++ [Event.load_object s1.s_impl_loader object_name]) = _
    rw [← hlk]
    simp [lookups]
  · rw [hwo, ← hmid]
    show delegations (mid.trace ++ [Event.load_object s1.s_impl_loader object_name]) = _
    rw [List.map_append, ← hdl]
    simp [delegations]

/-- C5, at the concrete input of the claim: the interface's `load_object("bar")`
returns the sentinel 4242, and so does `wpe_load_object("bar")`, as first call
and again after two other requests. -/
theorem wpe_load_object_delegates_verbatim_witness :
    (open_impl_library posixBuild interfaceWorld State.init =
        .returned 7 (open_impl_library posixBuild interfaceWorld State.init).state ∧
      interfaceWorld.dlsym 7 "_wpe_loader_interface" = 100 ∧
      interfaceWorld.load_object 100 "bar" = 4242) ∧
    wpe_load_object posixBuild interfaceWorld "bar" State.init =
      .returned 4242
        { s_impl_library := 7, s_impl_loader := 100,
          trace := [.getenv "WPE_BACKEND_LIBRARY", .dlopen "libWPEBackend-default.so",
            .dlsym 7 "_wpe_loader_interface", .load_object 100 "bar"] } ∧
    ∃ s, calls posixBuild interfaceWorld ["foo", "bar"] State.init =
        .returned [0, 4242] s ∧
      wpe_load_object posixBuild interfaceWorld "bar" s =
        .returned 4242 (emit (.load_object 100 "bar") s) := by
  refine ⟨⟨rfl, by decide, by decide⟩, by decide, ?_⟩
  obtain ⟨s1, s, -, hlib, hc, hldr, hw, -⟩ :=
    wpe_load_object_delegates_verbatim posixBuild interfaceWorld 7 _ rfl (by decide)
      (by decide) ["foo", "bar"] "bar"
  have h100 : s1.s_impl_loader = 100 := by rw [hldr, hlib]; decide
  rw [h100] at hc hw
  exact ⟨s, hc, hw⟩

/-! ## Direct symbol lookup -/

/-- C6, refuted as stated: in a WIN32 build, with the default library opened and
exporting nothing, the first request for the absent "foo" returns null with three
diagnostics (one for the absent interface symbol, two for "foo"), and a second
request for "foo" adds two more, one written by `loadsymbol` and one by
`wpe_load_object`. -/
theorem wpe_load_object_win32_reports_twice :
    legacyWorld.dlsym 7 "_wpe_loader_interface" = 0 ∧
    calls win32Build legacyWorld ["foo"] State.init =
      .returned [0] (calls win32Build legacyWorld ["foo"] State.init).state ∧
    (diagnostics (calls win32Build legacyWorld ["foo"] State.init).state.trace).length = 3 ∧
    wpe_load_object win32Build legacyWorld "foo"
        (calls win32Build legacyWorld ["foo"] State.init).state =
      .returned 0 (calls win32Build legacyWorld ["foo", "foo"] State.init).state ∧
    (diagnostics (calls win32Build legacyWorld ["foo", "foo"] State.init).state.trace).drop 3 =
      [("wpe: Failed to load symbol foo: The specified procedure could not be found.\n", 76),
        ("wpe_load_object: failed to load object with name 'foo'\n", 55)] :=
  ⟨rfl, rfl, by decide, rfl, by decide⟩

/-- C6, amended: when the open of the resolution yields a library that does not
export `_wpe_loader_interface`, the resolution returns (in a state `s1` holding
that library) and every `wpe_load_object` call returns the result of the direct
lookup of the unmodified name in that library, and makes no delegation; in the
WIN32 build this is for requested names that are found or short enough for the
message array of `loadsymbol`. After the resolution (if the call had to run it) a
call whose lookup succeeds writes no diagnostic, and a call whose lookup is empty
writes its own diagnostic last, preceded by nothing in a POSIX build and by at
most one diagnostic of `loadsymbol` in a WIN32 build; the own diagnostic is the
source's message with the name inserted whenever that message fits the 512-byte
buffer. In a POSIX build the resolution writes nothing either, so the call then
writes exactly one diagnostic, or none. -/
theorem wpe_load_object_direct_lookup (B : Build) (W : World) (handle : Ptr)
    (s0 : State) (hopen : open_impl_library B W State.init = .returned handle s0)
    (hne : handle ≠ 0)
    (hleg : W.dlsym handle "_wpe_loader_interface" = 0)
    (earlier : List String) (object_name : String)
    (hfit : ∀ n ∈ earlier ++ [object_name], B.WIN32 = true → W.dlsym handle n = 0 →
      n.length + 22 < MESSAGE_SIZE) :
    ∃ s1 s s2 own, load_impl_library B W State.init = .returned () s1 ∧
      s1.s_impl_library = handle ∧
      calls B W earlier State.init = .returned (earlier.map (W.dlsym handle)) s ∧
      wpe_load_object B W object_name s = .returned (W.dlsym handle object_name) s2 ∧
      lookups s2.trace = (handle, "_wpe_loader_interface") ::
        (earlier ++ [object_name]).map (fun n => (handle, n)) ∧
      delegations s2.trace = [] ∧
      own.length ≤ 1 ∧
      (B.WIN32 = false → own = []) ∧
      (W.dlsym handle object_name ≠ 0 →
        diagnostics s2.trace = diagnostics (if earlier = [] then s1 else s).trace) ∧
      (W.dlsym handle object_name = 0 →
        ∃ msg count, diagnostics s2.trace =
            diagnostics (if earlier = [] then s1 else s).trace ++ own ++ [(msg, count)] ∧
          (object_name.length + 52 < MSG_SIZE →
            msg = "wpe_load_object: failed to load object with name '" ++
              object_name ++ "'\n" ∧
            count = object_name.length + 52)) ∧
      (B.WIN32 = false →
        diagnostics (if earlier = [] then s1 else s).trace = diagnostics s.trace) := by
  obtain ⟨s1, hload, hlib, hldr, -⟩ :=
    load_impl_library_of_open_ok B W State.init s0 handle hopen hne
  have h0 : s1.s_impl_loader = 0 := by rw [hldr]; exact hleg
  have hfit1 : ∀ n ∈ earlier ++ [object_name],
      s1.s_impl_loader ≠ 0 ∨ symbol_fits B W s1.s_impl_library n := by
    intro n hn
    right
    intro hw hn0
    rw [hlib] at hn0
    exact hfit n hn hw hn0
  obtain ⟨s, mid, hc, hw, hmid, hlibm, hldrm, hlk, hdl, hdg, -⟩ :=
    request_after_calls B W s1 hload earlier
      (fun n hn => hfit1 n (List.mem_append_left _ hn))
  have hm0 : mid.s_impl_loader = 0 := by rw [hldrm]; exact h0
  simp only [h0, ne_eq, not_true_eq_false, if_false, hlib] at hc hlk hdl
  have hfitm : symbol_fits B W mid.s_impl_library object_name := by
    rw [hlibm]
    rcases hfit1 object_name (List.mem_append_right _ (List.mem_singleton_self _)) with h | h
    · exact absurd h0 h
    · exact h
  obtain ⟨s2, own, hf, hlen, hposix, hfound, habsent⟩ :=
    forward_object_legacy_diagnostics B W object_name mid hm0 hfitm
  obtain ⟨-, -, -, -, -, -, hlk2, hdl2, -⟩ :=
    forward_object_returned_spec B W object_name mid s2 _ hf
  simp only [hm0, ne_eq, not_true_eq_false, if_false, List.append_nil] at hlk2 hdl2
  rw [hlibm, hlib] at hf hfound habsent hlk2
  refine ⟨s1, s, s2, own, hload, hlib, hc, by rw [hw, hf], ?_, by rw [hdl2, hdl], hlen,
    hposix, ?_, ?_, ?_⟩
  · rw [hlk2, hlk]
    simp
  · intro hne2
    rw [hfound hne2, hmid]
  · intro h02
    refine ⟨_, _, by rw [habsent h02, hmid], ?_⟩
    intro hshort
    exact object_name_msg_fits object_name hshort
  · intro hp
    rw [← hmid]
    exact hdg (Or.inl hp)

/-- C6, amended, at the concrete input of the claim: POSIX build, variable unset,
the default library opens and exports nothing; the first request for "foo"
returns null and writes one diagnostic, which mentions "foo". In the WIN32 build
the same request, made after the resolution, writes that diagnostic last. -/
theorem wpe_load_object_direct_lookup_witness :
    (open_impl_library posixBuild legacyWorld State.init =
        .returned 7 (open_impl_library posixBuild legacyWorld State.init).state ∧
      legacyWorld.dlsym 7 "_wpe_loader_interface" = 0 ∧
      legacyWorld.dlsym 7 "foo" = 0) ∧
    wpe_load_object posixBuild legacyWorld "foo" State.init =
      .returned 0
        { s_impl_library := 7, s_impl_loader := 0,
          trace := [.getenv "WPE_BACKEND_LIBRARY", .dlopen "libWPEBackend-default.so",
            .dlsym 7 "_wpe_loader_interface", .dlsym 7 "foo",
            .fwrite "wpe_load_object: failed to load object with name 'foo'\n" 55] } ∧
    (∃ s2, wpe_load_object posixBuild legacyWorld "foo" State.init = .returned 0 s2 ∧
      diagnostics s2.trace =
        [("wpe_load_object: failed to load object with name '" ++ "foo" ++ "'\n",
          "foo".length + 52)]) ∧
    (∃ s s2 own, calls win32Build legacyWorld ["bar"] State.init = .returned [0] s ∧
      wpe_load_object win32Build legacyWorld "foo" s = .returned 0 s2 ∧
      own.length ≤ 1 ∧
      diagnostics s2.trace = diagnostics s.trace ++ own ++
        [("wpe_load_object: failed to load object with name '" ++ "foo" ++ "'\n",
          "foo".length + 52)]) := by
  refine ⟨⟨rfl, rfl, rfl⟩, by decide, ?_, ?_⟩
  · obtain ⟨s1, s, s2, own, -, -, hc, hw, -, -, -, hown, -, habs, hres⟩ :=
      wpe_load_object_direct_lookup posixBuild legacyWorld 7 _ rfl (by decide) rfl []
        "foo" (fun _ _ h => by cases h)
    obtain ⟨msg, count, hd, hfits⟩ := habs rfl
    obtain ⟨hm, hcount⟩ := hfits (by decide)
    have hs : s = State.init := by
      simp only [calls] at hc
      injection hc with _ h
      exact h.symm
    subst hs
    refine ⟨s2, hw, ?_⟩
    rw [hd, hres rfl, hown rfl, hm, hcount]
    rfl
  · obtain ⟨s1, s, s2, own, -, -, hc, hw, -, -, hlen, -, -, habs, -⟩ :=
      wpe_load_object_direct_lookup win32Build legacyWorld 7 _ rfl (by decide) rfl ["bar"]
        "foo" (fun n hn _ _ => by
          rcases List.mem_append.mp hn with h | h
          · rw [List.mem_singleton.mp h]; decide
          · rw [List.mem_singleton.mp h]; decide)
    obtain ⟨msg, count, hd, hfits⟩ := habs rfl
    obtain ⟨hm, hcount⟩ := hfits (by decide)
    refine ⟨s, s2, own, hc, hw, hlen, ?_⟩
    rw [hd, hm, hcount]
    rfl

/-! ## Empty results on the delegated path -/

/-- C7, refuted as stated: with the interface present and its `load_object("baz")`
returning null, `wpe_load_object("baz")` returns null after the delegated call
and nothing is written to stderr. -/
theorem wpe_load_object_delegated_empty_is_silent :
    interfaceWorld.load_object 100 "baz" = 0 ∧
    wpe_load_object posixBuild interfaceWorld "baz" State.init =
      .returned 0
        { s_impl_library := 7, s_impl_loader := 100,
          trace := [.getenv "WPE_BACKEND_LIBRARY", .dlopen "libWPEBackend-default.so",
            .dlsym 7 "_wpe_loader_interface", .load_object 100 "baz"] } ∧
    diagnostics (wpe_load_object posixBuild interfaceWorld "baz" State.init).state.trace = [] := by
  decide

/-- C7, amended: when the interface is present and its `load_object` returns null
for a name, `wpe_load_object` returns null for it and writes no diagnostic of its
own (reporting is left to the backend); the statics keep the values the
resolution gave them (state `s1`), they are unchanged when the request is not the
first one, and all later requests are still answered by the interface. -/
theorem wpe_load_object_delegated_empty (B : Build) (W : World) (handle : Ptr)
    (s0 : State) (hopen : open_impl_library B W State.init = .returned handle s0)
    (hne : handle ≠ 0)
    (hexp : W.dlsym handle "_wpe_loader_interface" ≠ 0)
    (earlier : List String) (object_name : String)
    (hempty : W.load_object (W.dlsym handle "_wpe_loader_interface") object_name = 0) :
    ∃ s1 s s2, load_impl_library B W State.init = .returned () s1 ∧
      s1.s_impl_library = handle ∧
      s1.s_impl_loader = W.dlsym s1.s_impl_library "_wpe_loader_interface" ∧
      calls B W earlier State.init =
        .returned (earlier.map (W.load_object s1.s_impl_loader)) s ∧
      wpe_load_object B W object_name s = .returned 0 s2 ∧
      diagnostics s2.trace = diagnostics s.trace ∧
      s2.s_impl_library = s1.s_impl_library ∧
      s2.s_impl_loader = s1.s_impl_loader ∧
      (earlier ≠ [] →
        s2.s_impl_library = s.s_impl_library ∧ s2.s_impl_loader = s.s_impl_loader) ∧
      ∀ later, ∃ s3, calls B W later s2 =
        .returned (later.map (W.load_object s1.s_impl_loader)) s3 := by
  obtain ⟨s1, hload, hlib, hldr, -⟩ :=
    load_impl_library_of_open_ok B W State.init s0 handle hopen hne
  have hnl : s1.s_impl_loader ≠ 0 := by rw [hldr]; exact hexp
  rw [← hldr] at hempty
  obtain ⟨hlib1, -⟩ := load_impl_library_returned_spec B W State.init s1 hload
  obtain ⟨s, mid, hc, hw, hmid, hlibm, hldrm, -, -, hdg, -⟩ :=
    request_after_calls B W s1 hload earlier (fun _ _ => Or.inl hnl)
  have hnm : mid.s_impl_loader ≠ 0 := by rw [hldrm]; exact hnl
  simp only [hnl, ne_eq, not_false_eq_true, if_true] at hc
  have hf := forward_object_delegated B W object_name mid hnm
  rw [hldrm, hempty] at hf
  have hw2 : wpe_load_object B W object_name s =
      .returned 0 (emit (.load_object s1.s_impl_loader object_name) mid) := by
    rw [hw, hf]
  have hready2 : (emit (.load_object s1.s_impl_loader object_name) mid).s_impl_library ≠ 0 := by
    show mid.s_impl_library ≠ 0
    rw [hlibm]
    exact hlib1
  have hne2 : (emit (.load_object s1.s_impl_loader object_name) mid).s_impl_loader ≠ 0 := hnm
  refine ⟨s1, s, _, hload, hlib, by rw [hldr, hlib], hc, hw2, ?_, hlibm, hldrm, ?_, ?_⟩
  · rw [← hdg (Or.inr hnl)]
    simp [emit, diagnostics]
  · intro hearlier
    rw [if_neg hearlier] at hmid
    rw [hmid]
    exact ⟨rfl, rfl⟩
  · intro later
    obtain ⟨s3, hc3, -⟩ := calls_ready B W later _ hready2 (fun _ _ => Or.inl hne2)
    have hl2 : (emit (.load_object s1.s_impl_loader object_name) mid).s_impl_loader =
        s1.s_impl_loader := hldrm
    simp only [hl2, hnl, ne_eq, not_false_eq_true, if_true] at hc3
    exact ⟨s3, hc3⟩

/-- C7, amended, at a concrete input: "baz" is unknown to the interface; the
request returns null silently and "bar" is still served afterwards. -/
theorem wpe_load_object_delegated_empty_witness :
    (open_impl_library posixBuild interfaceWorld State.init =
        .returned 7 (open_impl_library posixBuild interfaceWorld State.init).state ∧
      interfaceWorld.dlsym 7 "_wpe_loader_interface" = 100 ∧
      interfaceWorld.load_object 100 "baz" = 0) ∧
    ∃ s s2, calls posixBuild interfaceWorld ["bar"] State.init = .returned [4242] s ∧
      wpe_load_object posixBuild interfaceWorld "baz" s = .returned 0 s2 ∧
      diagnostics s2.trace = diagnostics s.trace ∧
      s2.s_impl_library = 7 ∧
      s2.s_impl_loader = 100 ∧
      ∃ s3, calls posixBuild interfaceWorld ["bar"] s2 = .returned [4242] s3 := by
  refine ⟨⟨rfl, by decide, by decide⟩, ?_⟩
  obtain ⟨s1, s, s2, -, hs1, hl1, hc, hw, hd, hlib, hldr, -, hlater⟩ :=
    wpe_load_object_delegated_empty posixBuild interfaceWorld 7 _ rfl (by decide)
      (by decide) ["bar"] "baz" (by decide)
  have h100 : s1.s_impl_loader = 100 := by rw [hl1, hs1]; decide
  rw [h100] at hc
  obtain ⟨s3, h3⟩ := hlater ["bar"]
  rw [h100] at h3
  exact ⟨s, s2, hc, hw, hd, by rw [hlib, hs1], by rw [hldr, h100], s3, h3⟩

/-! ## Diagnostics of `loadsymbol` -/

/-- C8, refuted as stated: in a POSIX build `loadsymbol` of an absent symbol
returns null and writes nothing, and the resolution that finds no
`_wpe_loader_interface` returns without any diagnostic. -/
theorem loadsymbol_posix_is_silent :
    legacyWorld.dlsym 7 "_wpe_loader_interface" = 0 ∧
    loadsymbol posixBuild legacyWorld 7 "_wpe_loader_interface"
        { s_impl_library := 7, s_impl_loader := 0, trace := [] } =
      .returned 0 { s_impl_library := 7, s_impl_loader := 0,
                    trace := [.dlsym 7 "_wpe_loader_interface"] } ∧
    load_impl_library posixBuild legacyWorld State.init =
      .returned ()
        { s_impl_library := 7, s_impl_loader := 0,
          trace := [.getenv "WPE_BACKEND_LIBRARY", .dlopen "libWPEBackend-default.so",
            .dlsym 7 "_wpe_loader_interface"] } ∧
    diagnostics (load_impl_library posixBuild legacyWorld State.init).state.trace = [] := by
  decide

/-- C8, amended: when the symbol resolves, `loadsymbol` returns its address and
writes nothing, in every build. In a POSIX build it is the bare lookup: it
returns what the linker gives, null for an absent symbol, and never writes
anything, so a resolution that finds no `_wpe_loader_interface` adds no
diagnostic. In a WIN32 build, for an absent symbol short enough for the 256-byte
message array, it returns null and reports exactly when `GetLastError()` is
non-zero; the report (stderr and message box) is
"wpe: Failed to load symbol <symbol>: <system text>" whenever that text fits the
512-byte buffer. -/
theorem loadsymbol_reports_only_on_win32 (B : Build) (W : World) (library : Ptr)
    (symbol : String) (s : State) :
    (W.dlsym library symbol ≠ 0 →
      loadsymbol B W library symbol s =
        .returned (W.dlsym library symbol) (emit (.dlsym library symbol) s)) ∧
    (B.WIN32 = false →
      loadsymbol B W library symbol s =
        .returned (W.dlsym library symbol) (emit (.dlsym library symbol) s)) ∧
    (B.WIN32 = false → ∀ s1, load_impl_library B W s = .returned () s1 →
      diagnostics s1.trace = diagnostics s.trace) ∧
    (B.WIN32 = true → W.dlsym library symbol = 0 → symbol.length + 22 < MESSAGE_SIZE →
      W.GetLastError (s.trace ++ [.dlsym library symbol]) = 0 →
      loadsymbol B W library symbol s = .returned 0 (emit (.dlsym library symbol) s)) ∧
    (B.WIN32 = true → W.dlsym library symbol = 0 → symbol.length + 22 < MESSAGE_SIZE →
      W.GetLastError (s.trace ++ [.dlsym library symbol]) ≠ 0 →
      ∃ msg count, loadsymbol B W library symbol s =
          .returned 0 (emit (.MessageBoxA msg)
            (emit (.fwrite msg count) (emit (.dlsym library symbol) s))) ∧
        (symbol.length + (W.FormatMessageA
            (W.GetLastError (s.trace ++ [.dlsym library symbol]))).length + 30 < MSG_SIZE →
          msg = "wpe: Failed to load symbol " ++ symbol ++ ": " ++
            W.FormatMessageA (W.GetLastError (s.trace ++ [.dlsym library symbol])) ++
            "\n" ∧
          count = symbol.length + (W.FormatMessageA
            (W.GetLastError (s.trace ++ [.dlsym library symbol]))).length + 30)) := by
  refine ⟨fun h => loadsymbol_silent B W library symbol s (Or.inr h),
    fun h => loadsymbol_silent B W library symbol s (Or.inl h), ?_, ?_, ?_⟩
  · intro hp s1 hload
    exact (load_impl_library_returned_spec B W s s1 hload).2.2.2.2.2.1 (Or.inl hp)
  · intro hw habsent hfit herr
    rw [loadsymbol_win32_absent B W library symbol s hw habsent hfit]
    unfold report_last_error
    dsimp only
    have herr2 : W.GetLastError (emit (.dlsym library symbol) s).trace = 0 := herr
    rw [herr2]
    rfl
  · intro hw habsent hfit herr
    rw [loadsymbol_win32_absent B W library symbol s hw habsent hfit]
    unfold report_last_error
    dsimp only
    have herr2 : W.GetLastError (emit (.dlsym library symbol) s).trace ≠ 0 := herr
    rw [if_pos herr2]
    unfold report_error
    rw [vformat_symbol]
    refine ⟨_, _, ?_, symbol_msg_fits symbol _⟩
    dsimp only
    rw [vformat_symbol_length, hw]
    rfl

/-- C8, amended, at concrete inputs: the WIN32 lookup of the absent "foo" with
last error 127 is reported with the symbol's name; the POSIX one is silent. -/
theorem loadsymbol_reports_only_on_win32_witness :
    (win32Build.WIN32 = true ∧ legacyWorld.dlsym 7 "foo" = 0 ∧
      "foo".length + 22 < MESSAGE_SIZE ∧
      legacyWorld.GetLastError ([] ++ [.dlsym 7 "foo"]) ≠ 0) ∧
    (∃ msg count, loadsymbol win32Build legacyWorld 7 "foo"
          { s_impl_library := 7, s_impl_loader := 0, trace := [] } =
        .returned 0 (emit (.MessageBoxA msg) (emit (.fwrite msg count) (emit (.dlsym 7 "foo")
          { s_impl_library := 7, s_impl_loader := 0, trace := [] }))) ∧
      msg = "wpe: Failed to load symbol foo: The specified procedure could not be found.\n" ∧
      count = 76) ∧
    loadsymbol posixBuild legacyWorld 7 "foo"
        { s_impl_library := 7, s_impl_loader := 0, trace := [] } =
      .returned 0 (emit (.dlsym 7 "foo")
        { s_impl_library := 7, s_impl_loader := 0, trace := [] }) := by
  have h := loadsymbol_reports_only_on_win32 win32Build legacyWorld 7 "foo"
    { s_impl_library := 7, s_impl_loader := 0, trace := [] }
  have hp := loadsymbol_reports_only_on_win32 posixBuild legacyWorld 7 "foo"
    { s_impl_library := 7, s_impl_loader := 0, trace := [] }
  refine ⟨⟨rfl, rfl, by decide, by decide⟩, ?_, hp.2.1 rfl⟩
  obtain ⟨msg, count, h1, h2⟩ := h.2.2.2.2 rfl rfl (by decide) (by decide)
  obtain ⟨hm, hcount⟩ := h2 (by decide)
  exact ⟨msg, count, h1, hm, hcount⟩

/-! ## The invariant of the static variables -/

/-- C9: in every state reached from the initial state by returning
`wpe_load_object` and `load_impl_library` steps, a non-null `s_impl_loader`
implies a non-null `s_impl_library` in which `_wpe_loader_interface` was looked up
and resolved to that very pointer; and from a state with a non-null
`s_impl_library` no sequence of returning steps leads to a null one. -/
theorem statics_invariant (B : Build) (W : World) (l : List Step) (s : State)
    (h : steps B W l State.init = some s) :
    (s.s_impl_loader ≠ 0 → s.s_impl_library ≠ 0 ∧
      s.s_impl_loader = W.dlsym s.s_impl_library "_wpe_loader_interface" ∧
      (s.s_impl_library, "_wpe_loader_interface") ∈ lookups s.trace) ∧
    (s.s_impl_library ≠ 0 → ∀ l1 s1, steps B W l1 s = some s1 →
      s1.s_impl_library ≠ 0) := by
  constructor
  · have key : ∀ (l : List Step) (a b : State),
        (a.s_impl_loader ≠ 0 → a.s_impl_library ≠ 0 ∧
          a.s_impl_loader = W.dlsym a.s_impl_library "_wpe_loader_interface" ∧
          (a.s_impl_library, "_wpe_loader_interface") ∈ lookups a.trace) →
        steps B W l a = some b →
        (b.s_impl_loader ≠ 0 → b.s_impl_library ≠ 0 ∧
          b.s_impl_loader = W.dlsym b.s_impl_library "_wpe_loader_interface" ∧
          (b.s_impl_library, "_wpe_loader_interface") ∈ lookups b.trace) := by
      intro l
      induction l with
      | nil =>
        intro a b ha hab
        simp only [steps, Option.some.injEq] at hab
        subst hab
        exact ha
      | cons st rest ih =>
        intro a b ha hab
        simp only [steps] at hab
        split at hab
        · rename_i a1 heq
          exact ih a1 b ((step_returned_inv B W st a a1 heq).2 ha) hab
        · cases hab
    exact key l State.init s (fun h0 => absurd rfl h0) h
  · intro hs l1
    clear h
    induction l1 generalizing s with
    | nil =>
      intro s1 h1
      simp only [steps, Option.some.injEq] at h1
      subst h1
      exact hs
    | cons st rest ih =>
      intro s1 h1
      simp only [steps] at h1
      split at h1
      · rename_i a1 heq
        exact ih a1 (step_returned_inv B W st s a1 heq).1 s1 h1
      · cases h1

/-- C9, at a concrete input: a request, a direct call of `load_impl_library` and
another request, against a backend that exports the interface at address 100. -/
theorem statics_invariant_witness :
    steps posixBuild interfaceWorld
        [.wpe_load_object "bar", .load_impl_library, .wpe_load_object "baz"] State.init =
      some { s_impl_library := 7, s_impl_loader := 100,
             trace := [.getenv "WPE_BACKEND_LIBRARY", .dlopen "libWPEBackend-default.so",
               .dlsym 7 "_wpe_loader_interface", .load_object 100 "bar",
               .getenv "WPE_BACKEND_LIBRARY", .dlopen "libWPEBackend-default.so",
               .dlsym 7 "_wpe_loader_interface", .load_object 100 "baz"] } ∧
    ((100 : Ptr) ≠ 0 → (7 : Ptr) ≠ 0 ∧
      100 = interfaceWorld.dlsym 7 "_wpe_loader_interface" ∧
      ((7 : Ptr), "_wpe_loader_interface") ∈ lookups
        [.getenv "WPE_BACKEND_LIBRARY", .dlopen "libWPEBackend-default.so",
          .dlsym 7 "_wpe_loader_interface", .load_object 100 "bar",
          .getenv "WPE_BACKEND_LIBRARY", .dlopen "libWPEBackend-default.so",
          .dlsym 7 "_wpe_loader_interface", .load_object 100 "baz"]) :=
  ⟨by decide, (statics_invariant posixBuild interfaceWorld
    [.wpe_load_object "bar", .load_impl_library, .wpe_load_object "baz"]
    { s_impl_library := 7, s_impl_loader := 100,
      trace := [.getenv "WPE_BACKEND_LIBRARY", .dlopen "libWPEBackend-default.so",
        .dlsym 7 "_wpe_loader_interface", .load_object 100 "bar",
        .getenv "WPE_BACKEND_LIBRARY", .dlopen "libWPEBackend-default.so",
        .dlsym 7 "_wpe_loader_interface", .load_object 100 "baz"] } (by decide)).1⟩

/-! ## The diagnostic buffer -/

/-- C10, evaluated at a failing input: on the failed direct-lookup path with an
object name of 500 characters, the byte count `report_error` hands to `fwrite`
is 552, more than the 512 bytes of the `msg` array it reads from. -/
theorem report_error_count_exceeds_msg :
    legacyWorld.dlsym 7 ⟨List.replicate 500 'a'⟩ = 0 ∧
    (diagnostics (wpe_load_object posixBuild legacyWorld ⟨List.replicate 500 'a'⟩
      State.init).state.trace).map Prod.snd = [552] ∧
    MSG_SIZE < 552 := by
  have hload : load_impl_library posixBuild legacyWorld State.init =
      .returned ()
        { s_impl_library := 7, s_impl_loader := 0,
          trace := [.getenv "WPE_BACKEND_LIBRARY", .dlopen "libWPEBackend-default.so",
            .dlsym 7 "_wpe_loader_interface"] } := by decide
  refine ⟨rfl, ?_, by decide⟩
  obtain ⟨s1, own, hf, -, hposix, -, habsent⟩ :=
    forward_object_legacy_diagnostics posixBuild legacyWorld ⟨List.replicate 500 'a'⟩
      { s_impl_library := 7, s_impl_loader := 0,
        trace := [.getenv "WPE_BACKEND_LIBRARY", .dlopen "libWPEBackend-default.so",
          .dlsym 7 "_wpe_loader_interface"] } rfl (fun h => by cases h)
  rw [wpe_load_object_first posixBuild legacyWorld _ State.init _ rfl hload, hf]
  show (diagnostics s1.trace).map Prod.snd = [552]
  rw [habsent rfl, hposix rfl]
  have hlen : String.length ⟨List.replicate 500 'a'⟩ = 500 := List.length_replicate _ _
  rw [hlen, size_t_of_vsnprintf_return (500 + 52) (by decide)]
  rfl

end WPE
